import Mathlib

/-!
Shallow embedding of `plugins/modules/virt.py` (community.libvirt `virt`
Ansible module).  The hypervisor (libvirt) is modelled as an explicit
`World`; every driver call the module would issue is recorded in a trace.
`core` mirrors the Python function `core(module)` line by line;
`module.fail_json` and uncaught Python exceptions are modelled as
`Except.error` outcomes of the whole invocation.
-/

namespace VirtModule

/-- Python truthiness of an optional string (`None` and `""` are falsy). -/
def truthy : Option String → Bool
  | none => false
  | some s => s ≠ ""

/-- `VM_COMMANDS` from the source. -/
def VM_COMMANDS : List String :=
  ["create", "define", "destroy", "get_xml", "pause", "shutdown", "status",
   "start", "stop", "undefine", "unpause"]

/-- `HOST_COMMANDS` from the source. -/
def HOST_COMMANDS : List String :=
  ["freemem", "info", "list_vms", "nodeinfo", "virttype"]

/-- `ALL_COMMANDS` from the source (`VM_COMMANDS ++ HOST_COMMANDS`). -/
def ALL_COMMANDS : List String := VM_COMMANDS ++ HOST_COMMANDS

/-- `VIRT_STATE_NAME_MAP.get(state, "unknown")` from the source. -/
def VIRT_STATE_NAME_MAP (n : Nat) : String :=
  if n = 0 then "running"
  else if n = 1 then "running"
  else if n = 2 then "running"
  else if n = 3 then "paused"
  else if n = 4 then "shutdown"
  else if n = 5 then "shutdown"
  else if n = 6 then "crashed"
  else "unknown"

/-- `ENTRY_UNDEFINE_FLAGS_MAP.get(item, 0)` from the source. -/
def ENTRY_UNDEFINE_FLAGS_MAP (s : String) : Nat :=
  if s = "managed_save" then 1
  else if s = "snapshots_metadata" then 2
  else if s = "nvram" then 4
  else if s = "keep_nvram" then 8
  else if s = "checkpoints_metadata" then 16
  else 0

/-- The flag-composition logic inlined in `core`'s `undefine` branch
(source lines 582-594).  Returns the bitmask (or the `ValueError` message
for the mutually-exclusive pair) together with whether the
"Ignoring force" warning was emitted. -/
def composeUndefineFlag (flags : Option (List String)) (force : Option Bool) :
    Except String Nat × Bool :=
  match flags with
  | some fl =>
      let warned := force = some true
      if "nvram" ∈ fl ∧ "keep_nvram" ∈ fl then
        (.error "Flags nvram and keep_nvram are mutually exclusive", warned)
      else
        (.ok (fl.foldl (fun acc item => acc + ENTRY_UNDEFINE_FLAGS_MAP item) 0), warned)
  | none =>
      (if force = some true then .ok 23 else .ok 0, false)

/-- Index of the first occurrence of `pat` in a character list. -/
def findSub (pat : List Char) : List Char → Option Nat
  | [] => if pat.isEmpty then some 0 else none
  | c :: rest =>
      if pat.isPrefixOf (c :: rest) then some 0
      else
        match findSub pat rest with
        | some i => some (i + 1)
        | none => none

/-- Index of the last occurrence of `pat` in a character list. -/
def lastSub (pat : List Char) : List Char → Option Nat
  | [] => if pat.isEmpty then some 0 else none
  | c :: rest =>
      match lastSub pat rest with
      | some i => some (i + 1)
      | none => if pat.isPrefixOf (c :: rest) then some 0 else none

/-- The characters split at newlines (`.` in the Python regex does not
match a newline, so a match never spans lines). -/
def splitLines : List Char → List (List Char)
  | [] => [[]]
  | c :: rest =>
      if c = '\n' then [] :: splitLines rest
      else
        match splitLines rest with
        | [] => [[c]]
        | h :: t => (c :: h) :: t

/-- `re.search('<name>(.*)</name>', line)` on one line: the greedy group
between the first `<name>` and the last `</name>` after it, if any. -/
def lineExtract (line : List Char) : Option (List Char) :=
  match findSub "<name>".data line with
  | none => none
  | some i =>
      let t := line.drop (i + 6)
      match lastSub "</name>".data t with
      | none => none
      | some j => some (t.take j)

/-- `re.search('<name>(.*)</name>', xml).groups()[0]`: the leftmost match
lies on the first line containing one. -/
def extractDomainName (xml : String) : Option String :=
  (splitLines xml.data).foldl
    (fun acc line => acc.orElse (fun _ => (lineExtract line).map String.mk)) none

/-- One VM as the modelled hypervisor knows it.  `statusFails` models a
transient per-handle failure of the `info()` driver call (e.g. the VM
disappeared between enumeration and status query). -/
structure VM where
  name : String
  stateCode : Nat
  autostart : Bool
  inactiveXML : String
  statusFails : Bool := false
  maxMem : Nat := 0
  memory : Nat := 0
  nrVirtCpu : Nat := 0
  cpuTime : Nat := 0
deriving Repr, DecidableEq

/-- The modelled hypervisor.  `normalizeXML` is how libvirt rewrites a
submitted definition into the stored inactive-config XML; `defineErrCode`
makes `defineXML` raise a `libvirtError` with that code (9 = "domain
already exists"). -/
structure World where
  vms : List VM
  normalizeXML : String → String
  defineErrCode : Option Nat := none
  freeMemory : Nat := 0
  nodeData : List String := []
  connType : String := "QEMU"

/-- `LibvirtConnection.find_vm` lookup (without the raised exception). -/
def World.findVM (w : World) (g : String) : Option VM :=
  w.vms.find? (fun vm => vm.name = g)

/-- Update the state code of the named VM (effect of start/stop/... on the
hypervisor). -/
def World.setState (w : World) (g : String) (c : Nat) : World :=
  { w with vms := w.vms.map (fun vm => if vm.name = g then { vm with stateCode := c } else vm) }

/-- Effect of `setAutostart` on the hypervisor. -/
def World.setAuto (w : World) (g : String) (b : Bool) : World :=
  { w with vms := w.vms.map (fun vm => if vm.name = g then { vm with autostart := b } else vm) }

/-- Effect of `undefineFlags` on the hypervisor: the domain is removed. -/
def World.removeVM (w : World) (g : String) : World :=
  { w with vms := w.vms.filter (fun vm => vm.name ≠ g) }

/-- Effect of `defineXML` on the hypervisor: overwrite the stored
inactive config of the named domain, or create the domain shut off. -/
def World.defineStore (w : World) (g : String) (x : String) : World :=
  if (w.findVM g).isSome then
    { w with vms := w.vms.map (fun vm => if vm.name = g then { vm with inactiveXML := x } else vm) }
  else
    { w with vms := w.vms ++ [{ name := g, stateCode := 5, autostart := false, inactiveXML := x }] }

/-- One driver call, as recorded in an invocation's trace. -/
inductive DCall where
  | openConn
  | listAll
  | getInfo (vm : String)
  | getXMLDesc (vm : String)
  | start (vm : String)
  | destroy (vm : String)
  | shutdown (vm : String)
  | suspend (vm : String)
  | resume (vm : String)
  | defineXML (xml : String)
  | undefine (vm : String) (flag : Nat)
  | getAutostart (vm : String)
  | setAutostart (vm : String) (val : Bool)
  | getFreeMemory
  | nodeInfoCall
  | getType
deriving Repr, DecidableEq

/-- The driver calls that mutate hypervisor state. -/
def DCall.isMutation : DCall → Bool
  | .start _ => true
  | .destroy _ => true
  | .shutdown _ => true
  | .suspend _ => true
  | .resume _ => true
  | .defineXML _ => true
  | .undefine _ _ => true
  | .setAutostart _ _ => true
  | _ => false

/-- Recognize a set-autostart call. -/
def DCall.isSetAuto : DCall → Bool
  | .setAutostart _ _ => true
  | _ => false

abbrev Trace := List DCall

/-- How an invocation can fail: `module.fail_json` or an uncaught Python
exception (which `main` turns into `fail_json` as well). -/
inductive Failure where
  | failJson (msg : String)
  | vmNotFound (g : String)
  | valueError (msg : String)
  | libvirtErr (code : Nat) (msg : String)
  | attrError (attrName : String)
  | typeError (attrName : String)
deriving Repr, DecidableEq

/-- Values appearing in the result dict. -/
inductive RVal where
  | int (n : Int)
  | str (s : String)
  | bool (b : Bool)
  | list (l : List String)
  | dict (d : List (String × RVal))
deriving Repr

/-- The Python result dict: ordered string-keyed pairs. -/
abbrev ResD := List (String × RVal)

/-- Python dict assignment `res[k] = v`: replace the (unique) binding of
`k` in place, else append it. -/
def ResD.set : ResD → String → RVal → ResD
  | [], k, v => [(k, v)]
  | e :: t, k, v => if e.1 = k then (k, v) :: t else e :: ResD.set t k v

/-- Python dict lookup `res.get(k)`. -/
def ResD.get : ResD → String → Option RVal
  | [], _ => none
  | e :: t, k => if e.1 = k then some e.2 else ResD.get t k

/-- The `changed` value the Ansible framework reports after
`module.exit_json(**result)`: the `changed` key if present, defaulting to
false when absent or non-boolean. -/
def finalChanged (res : ResD) : Bool :=
  match res.get "changed" with
  | some (.bool b) => b
  | _ => false

namespace Virt

/-- `Virt.status`: fresh connection, `find_vm` (one `listAllDomains`),
then `info()[0]` mapped through `VIRT_STATE_NAME_MAP`. -/
def status (w : World) (g : String) : Except Failure String × Trace :=
  match w.findVM g with
  | none => (.error (.vmNotFound g), [.openConn, .listAll])
  | some vm =>
      if vm.statusFails then
        (.error (.libvirtErr 1 "operation failed: cannot get info"), [.openConn, .listAll, .getInfo g])
      else
        (.ok (VIRT_STATE_NAME_MAP vm.stateCode), [.openConn, .listAll, .getInfo g])

/-- `Virt.get_vm`: fresh connection, `find_vm` (raises `VMNotFound`). -/
def get_vm (w : World) (g : String) : Except Failure VM × Trace :=
  match w.findVM g with
  | none => (.error (.vmNotFound g), [.openConn, .listAll])
  | some vm => (.ok vm, [.openConn, .listAll])

/-- `Virt.create`: fresh connection, `find_vm(vmid).create()`. -/
def create (w : World) (g : String) : Except Failure Int × World × Trace :=
  match w.findVM g with
  | none => (.error (.vmNotFound g), w, [.openConn, .listAll])
  | some _ => (.ok 0, w.setState g 1, [.openConn, .listAll, .start g])

/-- `Virt.start` delegates to the same `conn.create` primitive. -/
def start (w : World) (g : String) : Except Failure Int × World × Trace :=
  create w g

/-- `Virt.shutdown`: `self.conn.shutdown(vmid); return 0`. -/
def shutdown (w : World) (g : String) : Except Failure Int × World × Trace :=
  match w.findVM g with
  | none => (.error (.vmNotFound g), w, [.openConn, .listAll])
  | some _ => (.ok 0, w.setState g 5, [.openConn, .listAll, .shutdown g])

/-- `Virt.destroy`: forced stop. -/
def destroy (w : World) (g : String) : Except Failure Int × World × Trace :=
  match w.findVM g with
  | none => (.error (.vmNotFound g), w, [.openConn, .listAll])
  | some _ => (.ok 0, w.setState g 5, [.openConn, .listAll, .destroy g])

/-- `Virt.pause` → `conn.suspend`. -/
def pause (w : World) (g : String) : Except Failure Int × World × Trace :=
  match w.findVM g with
  | none => (.error (.vmNotFound g), w, [.openConn, .listAll])
  | some _ => (.ok 0, w.setState g 3, [.openConn, .listAll, .suspend g])

/-- `Virt.unpause` → `conn.resume`. -/
def unpause (w : World) (g : String) : Except Failure Int × World × Trace :=
  match w.findVM g with
  | none => (.error (.vmNotFound g), w, [.openConn, .listAll])
  | some _ => (.ok 0, w.setState g 1, [.openConn, .listAll, .resume g])

/-- `Virt.undefine`: `find_vm(vmid).undefineFlags(flag)`. -/
def undefine (w : World) (g : String) (flag : Nat) : Except Failure Int × World × Trace :=
  match w.findVM g with
  | none => (.error (.vmNotFound g), w, [.openConn, .listAll])
  | some _ => (.ok 0, w.removeVM g, [.openConn, .listAll, .undefine g flag])

/-- `Virt.autostart`: read the current flag (`lookupByName` +
`vm.autostart()`), call `setAutostart` only when it differs; returns
whether a change was made. -/
def autostart (w : World) (g : String) (as_flag : Bool) : Except Failure Bool × World × Trace :=
  match w.findVM g with
  | none => (.error (.libvirtErr 42 ("Domain not found: " ++ g)), w, [.openConn])
  | some vm =>
      if vm.autostart ≠ as_flag then
        (.ok true, w.setAuto g as_flag, [.openConn, .getAutostart g, .setAutostart g as_flag])
      else
        (.ok false, w, [.openConn, .getAutostart g])

/-- `Virt.get_xml`: `conn.lookupByName(vmid).XMLDesc(0)`. -/
def get_xml (w : World) (g : String) : Except Failure String × Trace :=
  match w.findVM g with
  | none => (.error (.libvirtErr 42 ("Domain not found: " ++ g)), [.openConn])
  | some vm => (.ok vm.inactiveXML, [.openConn, .getXMLDesc g])

/-- `Virt.define`: `conn.defineXML(xml)`; on success the hypervisor
stores the (normalized) definition under the XML's embedded name and the
returned handle denotes that domain. -/
def define (w : World) (xml : String) : Except Failure String × World × Trace :=
  match w.defineErrCode with
  | some c => (.error (.libvirtErr c "defineXML failed"), w, [.openConn, .defineXML xml])
  | none =>
      match extractDomainName xml with
      | none => (.error (.libvirtErr 27 "no domain name in xml"), w, [.openConn, .defineXML xml])
      | some n => (.ok n, w.defineStore n (w.normalizeXML xml), [.openConn, .defineXML xml])

/-- `Virt.list_vms`: enumerate all domains; with a (truthy) filter, keep
exactly the names whose per-item status lookup succeeds and equals the
filter; a per-item failure is swallowed (`except Exception: pass`). -/
def list_vms (w : World) (state : Option String) : List String × Trace :=
  (w.vms.filterMap (fun x =>
      if truthy state then
        if x.statusFails then none
        else if some (VIRT_STATE_NAME_MAP x.stateCode) = state then some x.name
        else none
      else some x.name),
   [DCall.openConn, DCall.listAll] ++
     (if truthy state then w.vms.map (fun x => DCall.getInfo x.name) else []))

/-- The per-VM loop of `Virt.info`: `conn.find_vm(vm).info()` plus
`conn.get_autostart(vm)` for each enumerated name; failures propagate. -/
def infoEntries (w : World) : List String → Except Failure (List (String × RVal)) × Trace
  | [] => (.ok [], [])
  | n :: rest =>
      match w.findVM n with
      | none => (.error (.vmNotFound n), [.listAll])
      | some vm =>
          if vm.statusFails then
            (.error (.libvirtErr 1 "operation failed: cannot get info"), [.listAll, .getInfo n])
          else
            match infoEntries w rest with
            | (.error e, tr) =>
                (.error e, [DCall.listAll, DCall.getInfo n, DCall.getAutostart n] ++ tr)
            | (.ok d, tr) =>
                (.ok ((n, RVal.dict
                    [("state", .str (VIRT_STATE_NAME_MAP vm.stateCode)),
                     ("maxMem", .str (toString vm.maxMem)),
                     ("memory", .str (toString vm.memory)),
                     ("nrVirtCpu", .int (vm.nrVirtCpu : Int)),
                     ("cpuTime", .str (toString vm.cpuTime)),
                     ("autostart", .bool vm.autostart)]) :: d),
                 [DCall.listAll, DCall.getInfo n, DCall.getAutostart n] ++ tr)

/-- `Virt.info`: `list_vms()` then the per-VM info loop. -/
def info (w : World) : Except Failure (List (String × RVal)) × Trace :=
  let (names, tr) := list_vms w none
  match infoEntries w names with
  | (.error e, tr2) => (.error e, tr ++ tr2)
  | (.ok d, tr2) => (.ok d, tr ++ tr2)

/-- The per-VM loop of `Virt.state`: `conn.get_status(vm)` per name. -/
def stateEntries (w : World) : List String → Except Failure (List String) × Trace
  | [] => (.ok [], [])
  | n :: rest =>
      match w.findVM n with
      | none => (.error (.vmNotFound n), [.listAll])
      | some vm =>
          if vm.statusFails then
            (.error (.libvirtErr 1 "operation failed: cannot get info"), [.listAll, .getInfo n])
          else
            match stateEntries w rest with
            | (.error e, tr) => (.error e, [DCall.listAll, DCall.getInfo n] ++ tr)
            | (.ok l, tr) =>
                (.ok ((n ++ " " ++ VIRT_STATE_NAME_MAP vm.stateCode) :: l),
                 [DCall.listAll, DCall.getInfo n] ++ tr)

/-- `Virt.state`: blurb list `"<name> <status>"` for every VM. -/
def state (w : World) : Except Failure (List String) × Trace :=
  let (names, tr) := list_vms w none
  match stateEntries w names with
  | (.error e, tr2) => (.error e, tr ++ tr2)
  | (.ok l, tr2) => (.ok l, tr ++ tr2)

/-- `Virt.nodeinfo`: `conn.getInfo()` reshaped into a dict of strings. -/
def nodeinfo (w : World) : List (String × RVal) × Trace :=
  ([("cpumodel", .str (w.nodeData.getD 0 "")),
    ("phymemory", .str (w.nodeData.getD 1 "")),
    ("cpus", .str (w.nodeData.getD 2 "")),
    ("cpumhz", .str (w.nodeData.getD 3 "")),
    ("numanodes", .str (w.nodeData.getD 4 "")),
    ("sockets", .str (w.nodeData.getD 5 "")),
    ("cpucores", .str (w.nodeData.getD 6 "")),
    ("cputhreads", .str (w.nodeData.getD 7 ""))],
   [.openConn, .nodeInfoCall])

/-- `Virt.virttype`: `self.__get_conn().get_type()`. -/
def virttype (w : World) : String × Trace :=
  (w.connType, [.openConn, .getType])

/-- `Virt.freemem`: `self.conn.getFreeMemory()`. -/
def freemem (w : World) : Nat × Trace :=
  (w.freeMemory, [.openConn, .getFreeMemory])

end Virt

/-- The module parameters `core` reads (`module.params.get(...)`). -/
structure Params where
  state : Option String := none
  autostart : Option Bool := none
  name : Option String := none
  command : Option String := none
  force : Option Bool := none
  flags : Option (List String) := none
  uri : String := "qemu:///system"
  xml : Option String := none

/-- Outcome of one `core` invocation: the returned result dict (or the
failure), the full driver-call trace, and the warnings emitted. -/
structure CoreOut where
  result : Except Failure ResD
  trace : Trace
  warnings : List String

/-- A stage of `core` either returns/fails (ending the invocation) or
hands the accumulated result, world and trace to the next block. -/
inductive StepOut where
  | done (out : CoreOut)
  | cont (res : ResD) (w : World) (tr : Trace) (warns : List String)

/-- Source lines 494-503: the autostart pre-check block of `core`. -/
def coreAutostart (p : Params) (w : World) : StepOut :=
  match p.autostart with
  | some a =>
      if p.command ≠ some "define" then
        if ¬ truthy p.name then
          .done ⟨.error (.failJson "autostart requires 1 argument: name"), [], []⟩
        else
          let g := p.name.getD ""
          match Virt.get_vm w g with
          | (.error (.vmNotFound _), tr) =>
              .done ⟨.error (.failJson ("domain " ++ g ++ " not found")), tr, []⟩
          | (.error e, tr) => .done ⟨.error e, tr, []⟩
          | (.ok _, tr) =>
              match Virt.autostart w g a with
              | (.error e, _, tr2) => .done ⟨.error e, tr ++ tr2, []⟩
              | (.ok b, w', tr2) =>
                  let res : ResD := [("changed", RVal.bool b)]
                  if ¬ truthy p.command ∧ ¬ truthy p.state then
                    .done ⟨.ok res, tr ++ tr2, []⟩
                  else
                    .cont res w' (tr ++ tr2) []
      else .cont [] w [] []
  | none => .cont [] w [] []

/-- The shared shape of the four transition arms of the desired-state
block: `res['changed'] = True; res['msg'] = <transition call>` (an error
raised by the call propagates). -/
def transitionStep (mres : Except Failure Int × World × Trace) (res : ResD)
    (tr : Trace) (warns : List String) : StepOut :=
  match mres with
  | (.error e, _, t2) => .done ⟨.error e, tr ++ t2, warns⟩
  | (.ok v, _, t2) =>
      .done ⟨.ok ((res.set "changed" (.bool true)).set "msg" (.int v)), tr ++ t2, warns⟩

/-- Source lines 505-531: the desired-state block of `core`. -/
def coreState (p : Params) (res : ResD) (w : World) (tr : Trace) (warns : List String) :
    StepOut :=
  if truthy p.state then
    if ¬ truthy p.name then
      .done ⟨.error (.failJson "state change requires a guest specified"), tr, warns⟩
    else
      let g := p.name.getD ""
      if p.state = some "running" then
        match Virt.status w g with
        | (.error e, t1) => .done ⟨.error e, tr ++ t1, warns⟩
        | (.ok st, t1) =>
            if st = "paused" then
              transitionStep (Virt.unpause w g) res (tr ++ t1) warns
            else
              match Virt.status w g with
              | (.error e, t2) => .done ⟨.error e, tr ++ t1 ++ t2, warns⟩
              | (.ok st2, t2) =>
                  if st2 ≠ "running" then
                    transitionStep (Virt.start w g) res (tr ++ t1 ++ t2) warns
                  else
                    .done ⟨.ok res, tr ++ t1 ++ t2, warns⟩
      else if p.state = some "shutdown" then
        match Virt.status w g with
        | (.error e, t1) => .done ⟨.error e, tr ++ t1, warns⟩
        | (.ok st, t1) =>
            if st ≠ "shutdown" then
              transitionStep (Virt.shutdown w g) res (tr ++ t1) warns
            else
              .done ⟨.ok res, tr ++ t1, warns⟩
      else if p.state = some "destroyed" then
        match Virt.status w g with
        | (.error e, t1) => .done ⟨.error e, tr ++ t1, warns⟩
        | (.ok st, t1) =>
            if st ≠ "shutdown" then
              transitionStep (Virt.destroy w g) res (tr ++ t1) warns
            else
              .done ⟨.ok res, tr ++ t1, warns⟩
      else if p.state = some "paused" then
        match Virt.status w g with
        | (.error e, t1) => .done ⟨.error e, tr ++ t1, warns⟩
        | (.ok st, t1) =>
            if st = "running" then
              transitionStep (Virt.pause w g) res (tr ++ t1) warns
            else
              .done ⟨.ok res, tr ++ t1, warns⟩
      else
        .done ⟨.error (.failJson "unexpected state"), tr, warns⟩
  else
    .cont res w tr warns

/-- Wrap an int-returning VM command (`res = {command: res}`). -/
def wrapIntCmd (c : String) (r : Except Failure Int × World × Trace)
    (tr : Trace) (warns : List String) : CoreOut :=
  match r with
  | (.error e, _, t1) => ⟨.error e, tr ++ t1, warns⟩
  | (.ok v, _, t1) => ⟨.ok [(c, .int v)], tr ++ t1, warns⟩

/-- Wrap a string-returning VM command (`res = {command: res}`). -/
def wrapStrCmd (c : String) (r : Except Failure String × Trace)
    (tr : Trace) (warns : List String) : CoreOut :=
  match r with
  | (.error e, t1) => ⟨.error e, tr ++ t1, warns⟩
  | (.ok s, t1) => ⟨.ok [(c, .str s)], tr ++ t1, warns⟩

/-- The trailing autostart check of the `define` branch (source lines
571-572): `if autostart is not None and v.autostart(domain_name,
autostart): res = {'changed': True, 'change_reason': 'autostart'}`. -/
def defineAutostartTail (aut : Option Bool) (w : World) (domainName : String)
    (res1 : ResD) (tracc : Trace) (warns1 : List String) : CoreOut :=
  match aut with
  | some a =>
      match Virt.autostart w domainName a with
      | (.error e, _, t3) => ⟨.error e, tracc ++ t3, warns1⟩
      | (.ok b, _, t3) =>
          ⟨.ok (if b then
                  [("changed", RVal.bool true), ("change_reason", RVal.str "autostart")]
                else res1),
           tracc ++ t3, warns1⟩
  | none => ⟨.ok res1, tracc, warns1⟩

/-- The body of the `define` branch after the xml-presence check and the
name warning (source lines 541-572). -/
def coreDefineBody (aut : Option Bool) (w : World) (x : String) (res : ResD)
    (tr : Trace) (ws1 : List String) : CoreOut :=
  match extractDomainName x with
  | none => ⟨.error (.failJson "Could not find domain name in xml"), tr, ws1⟩
  | some domainName =>
      -- existing_domain_xml = v.get_vm(name).XMLDesc(INACTIVE), None on VMNotFound
      let existing : Option String :=
        match (Virt.get_vm w domainName).1 with
        | .error _ => none
        | .ok vm => some vm.inactiveXML
      let trE : Trace :=
        (Virt.get_vm w domainName).2 ++
          (match existing with
           | some _ => [DCall.getXMLDesc domainName]
           | none => [])
      match Virt.define w x with
      | (.ok n, w', t2) =>
          -- domain.XMLDesc(INACTIVE) on the (re)defined domain
          let newXml :=
            match w'.findVM n with
            | some vm' => vm'.inactiveXML
            | none => ""
          let res1 : ResD :=
            match existing with
            | some e =>
                if e ≠ newXml then
                  [("changed", RVal.bool true), ("change_reason", RVal.str "config changed")]
                else res
            | none => [("changed", RVal.bool true), ("created", RVal.str n)]
          let trX : Trace :=
            match existing with
            | some _ => [DCall.getXMLDesc n]
            | none => []
          defineAutostartTail aut w' domainName res1 (tr ++ trE ++ t2 ++ trX) ws1
      | (.error (.libvirtErr code m), _, t2) =>
          if code ≠ 9 then
            ⟨.error (.failJson ("libvirtError: " ++ m)), tr ++ trE ++ t2, ws1⟩
          else
            -- 9 means "domain already exists": benign, res is left unchanged
            defineAutostartTail aut w domainName res (tr ++ trE ++ t2) ws1
      | (.error e, _, t2) => ⟨.error e, tr ++ trE ++ t2, ws1⟩

/-- Source lines 535-572: the `define` branch of `core`. -/
def coreDefine (p : Params) (res : ResD) (w : World) (tr : Trace) (warns : List String) :
    CoreOut :=
  if ¬ truthy p.xml then
    ⟨.error (.failJson "define requires xml argument"), tr, warns⟩
  else
    coreDefineBody p.autostart w (p.xml.getD "") res tr
      (warns ++ (if truthy p.name then ["xml is given - ignoring name"] else []))

/-- The `Virt` method names, for the `hasattr(v, command)` test. -/
def virtAttrNames : List String :=
  ["get_vm", "state", "info", "nodeinfo", "list_vms", "virttype", "autostart",
   "freemem", "shutdown", "pause", "unpause", "create", "start", "destroy",
   "undefine", "status", "get_xml", "get_maxVcpus", "get_max_memory", "define"]

/-- Source lines 533-616: the command block of `core` (plus the final
"expected state or command" failure). -/
def coreCommand (p : Params) (res : ResD) (w : World) (tr : Trace) (warns : List String) :
    CoreOut :=
  if truthy p.command then
    let c := p.command.getD ""
    if c ∈ VM_COMMANDS then
      if c = "define" then
        coreDefine p res w tr warns
      else if ¬ truthy p.name then
        ⟨.error (.failJson (c ++ " requires 1 argument: guest")), tr, warns⟩
      else
        let g := p.name.getD ""
        if c = "undefine" then
          let (fr, warned) := composeUndefineFlag p.flags p.force
          let warns1 := warns ++ (if warned then ["Ignoring force, because flags are provided."] else [])
          match fr with
          | .error m => ⟨.error (.valueError m), tr, warns1⟩
          | .ok flag =>
              match Virt.undefine w g flag with
              | (.error e, _, t1) => ⟨.error e, tr ++ t1, warns1⟩
              | (.ok v, _, t1) => ⟨.ok [("undefine", .int v)], tr ++ t1, warns1⟩
        else if c = "create" then wrapIntCmd c (Virt.create w g) tr warns
        else if c = "start" then wrapIntCmd c (Virt.start w g) tr warns
        else if c = "destroy" then wrapIntCmd c (Virt.destroy w g) tr warns
        else if c = "shutdown" then wrapIntCmd c (Virt.shutdown w g) tr warns
        else if c = "pause" then wrapIntCmd c (Virt.pause w g) tr warns
        else if c = "unpause" then wrapIntCmd c (Virt.unpause w g) tr warns
        else if c = "status" then wrapStrCmd c (Virt.status w g) tr warns
        else if c = "get_xml" then wrapStrCmd c (Virt.get_xml w g) tr warns
        else
          -- `getattr(v, command)` fails: no `Virt` method of that name ("stop")
          ⟨.error (.attrError c), tr, warns⟩
    else if c = "freemem" then
      let (n, t1) := Virt.freemem w
      ⟨.ok [("freemem", .int (n : Int))], tr ++ t1, warns⟩
    else if c = "info" then
      match Virt.info w with
      | (.error e, t1) => ⟨.error e, tr ++ t1, warns⟩
      | (.ok d, t1) => ⟨.ok d, tr ++ t1, warns⟩
    else if c = "list_vms" then
      let (l, t1) := Virt.list_vms w none
      ⟨.ok [("list_vms", .list l)], tr ++ t1, warns⟩
    else if c = "nodeinfo" then
      let (d, t1) := Virt.nodeinfo w
      ⟨.ok d, tr ++ t1, warns⟩
    else if c = "virttype" then
      let (s, t1) := Virt.virttype w
      ⟨.ok [("virttype", .str s)], tr ++ t1, warns⟩
    else if c = "state" then
      match Virt.state w with
      | (.error e, t1) => ⟨.error e, tr ++ t1, warns⟩
      | (.ok l, t1) => ⟨.ok [("state", .list l)], tr ++ t1, warns⟩
    else if c ∈ virtAttrNames then
      -- `hasattr` holds but the zero-argument call raises `TypeError`
      ⟨.error (.typeError c), tr, warns⟩
    else
      ⟨.error (.failJson ("Command " ++ c ++ " not recognized")), tr, warns⟩
  else
    ⟨.error (.failJson "expected state or command parameter to be specified"), tr, warns⟩

/-- The whole of `core(module)` (source lines 474-616). -/
def core (p : Params) (w : World) : CoreOut :=
  if truthy p.state ∧ p.command = some "list_vms" then
    let (l, t1) := Virt.list_vms w p.state
    ⟨.ok [("list_vms", .list l)], t1, []⟩
  else
    match coreAutostart p w with
    | .done out => out
    | .cont res w' tr warns =>
        match coreState p res w' tr warns with
        | .done out => out
        | .cont res2 w2 tr2 warns2 => coreCommand p res2 w2 tr2 warns2

/-- Projection used to observe the intermediate result a stage hands on. -/
def stepRes : StepOut → Option ResD
  | .done _ => none
  | .cont res _ _ _ => some res

/-- Count of connection-open events in a trace. -/
def countOpen (t : Trace) : Nat :=
  t.countP (fun c => c = DCall.openConn)

/- ### Helper lemmas -/

theorem ResD.get_set_self (res : ResD) (k : String) (v : RVal) :
    (res.set k v).get k = some v := by
  induction res with
  | nil => simp [ResD.set, ResD.get]
  | cons e t ih =>
      by_cases he : e.1 = k
      · simp [ResD.set, ResD.get, he]
      · simp [ResD.set, ResD.get, he, ih]

theorem ResD.get_set_other (res : ResD) (k k' : String) (v : RVal) (h : k' ≠ k) :
    (res.set k v).get k' = res.get k' := by
  induction res with
  | nil => simp [ResD.set, ResD.get, Ne.symm h]
  | cons e t ih =>
      by_cases he : e.1 = k
      · simp [ResD.set, ResD.get, he, h, Ne.symm h]
      · by_cases he' : e.1 = k'
        · simp [ResD.set, ResD.get, he, he', h]
        · simp [ResD.set, ResD.get, he, he', ih]

theorem Virt.status_ok (w : World) (g : String) (st : String) (t : Trace)
    (h : Virt.status w g = (.ok st, t)) :
    t = [.openConn, .listAll, .getInfo g] := by
  unfold Virt.status at h
  rcases hf : w.findVM g with _ | vm <;> rw [hf] at h
  · simp at h
  · by_cases hs : vm.statusFails <;> simp_all

theorem Virt.unpause_ok (w : World) (g : String) (v : Int)
    (h : (Virt.unpause w g).1 = .ok v) :
    v = 0 ∧ (Virt.unpause w g).2.2 = [.openConn, .listAll, .resume g] := by
  unfold Virt.unpause at *
  rcases hf : w.findVM g with _ | vm <;> simp_all

theorem Virt.start_ok (w : World) (g : String) (v : Int)
    (h : (Virt.start w g).1 = .ok v) :
    v = 0 ∧ (Virt.start w g).2.2 = [.openConn, .listAll, .start g] := by
  unfold Virt.start Virt.create at *
  rcases hf : w.findVM g with _ | vm <;> simp_all

theorem Virt.shutdown_ok (w : World) (g : String) (v : Int)
    (h : (Virt.shutdown w g).1 = .ok v) :
    v = 0 ∧ (Virt.shutdown w g).2.2 = [.openConn, .listAll, .shutdown g] := by
  unfold Virt.shutdown at *
  rcases hf : w.findVM g with _ | vm <;> simp_all

theorem Virt.destroy_ok (w : World) (g : String) (v : Int)
    (h : (Virt.destroy w g).1 = .ok v) :
    v = 0 ∧ (Virt.destroy w g).2.2 = [.openConn, .listAll, .destroy g] := by
  unfold Virt.destroy at *
  rcases hf : w.findVM g with _ | vm <;> simp_all

theorem Virt.pause_ok (w : World) (g : String) (v : Int)
    (h : (Virt.pause w g).1 = .ok v) :
    v = 0 ∧ (Virt.pause w g).2.2 = [.openConn, .listAll, .suspend g] := by
  unfold Virt.pause at *
  rcases hf : w.findVM g with _ | vm <;> simp_all

theorem transitionStep_done_ok (mres : Except Failure Int × World × Trace) (res : ResD)
    (tr : Trace) (warns : List String) (out : CoreOut) (res' : ResD)
    (h : transitionStep mres res tr warns = .done out) (hok : out.result = .ok res') :
    ∃ v, mres.1 = .ok v ∧
      res' = (res.set "changed" (.bool true)).set "msg" (.int v) ∧
      out.trace = tr ++ mres.2.2 := by
  rcases mres with ⟨e, w', t2⟩
  cases e with
  | error e => cases h; simp at hok
  | ok v => cases h; simp at hok; exact ⟨v, rfl, hok.symm, rfl⟩

theorem get_changed_after_set (res : ResD) (v : Int) :
    ((res.set "changed" (RVal.bool true)).set "msg" (RVal.int v)).get "changed" =
      some (RVal.bool true) := by
  rw [ResD.get_set_other _ _ _ _ (by decide), ResD.get_set_self]

/-- The desired-state block, when it ends the invocation successfully,
only appends driver calls to the trace (never a set-autostart call), and
either performed no mutation and returned the accumulated result
untouched, or performed exactly one mutating transition call and reports
`changed=true`. -/
theorem coreState_ok_cases (p : Params) (res : ResD) (w : World) (tr : Trace)
    (warns : List String) (out : CoreOut) (res' : ResD)
    (hs : truthy p.state = true)
    (hdone : coreState p res w tr warns = .done out)
    (hok : out.result = .ok res') :
    ∃ Δ, out.trace = tr ++ Δ ∧ Δ.countP DCall.isSetAuto = 0 ∧
      ((res' = res ∧ Δ.countP DCall.isMutation = 0) ∨
       (res'.get "changed" = some (.bool true) ∧ Δ.countP DCall.isMutation = 1)) := by
  unfold coreState at hdone
  rw [hs] at hdone
  simp only [if_true] at hdone
  by_cases hn : truthy p.name
  case neg =>
    rw [if_pos (by simp [hn])] at hdone
    cases hdone
    simp at hok
  case pos =>
    rw [if_neg (by simp [hn])] at hdone
    by_cases h1 : p.state = some "running"
    · rw [if_pos h1] at hdone
      split at hdone
      next e t1 heq => cases hdone; simp at hok
      next st t1 heq =>
        by_cases hp : st = "paused"
        · rw [if_pos hp] at hdone
          obtain ⟨v, hv1, hres', htr⟩ := transitionStep_done_ok _ _ _ _ _ _ hdone hok
          obtain ⟨hv0, htr2⟩ := Virt.unpause_ok w (p.name.getD "") v hv1
          have ht1 := Virt.status_ok _ _ _ _ heq
          refine ⟨t1 ++ (Virt.unpause w (p.name.getD "")).2.2,
            by rw [htr, List.append_assoc], ?_, Or.inr ⟨?_, ?_⟩⟩
          · rw [htr2, ht1]
            simp [List.countP_cons, DCall.isSetAuto]
          · rw [hres']; exact get_changed_after_set res v
          · rw [htr2, ht1]
            simp [List.countP_cons, DCall.isMutation]
        · rw [if_neg hp] at hdone
          split at hdone
          next e2 t2 heq2 => cases hdone; simp at hok
          next st2 t2 heq2 =>
            injection heq2 with hA hB
            subst hB
            by_cases hr : st2 ≠ "running"
            · rw [if_pos hr] at hdone
              obtain ⟨v, hv1, hres', htr⟩ := transitionStep_done_ok _ _ _ _ _ _ hdone hok
              obtain ⟨hv0, htr2⟩ := Virt.start_ok w (p.name.getD "") v hv1
              have ht1 := Virt.status_ok _ _ _ _ heq
              refine ⟨t1 ++ t1 ++ (Virt.start w (p.name.getD "")).2.2,
                by rw [htr]; simp [List.append_assoc], ?_, Or.inr ⟨?_, ?_⟩⟩
              · rw [htr2, ht1]
                simp [List.countP_cons, DCall.isSetAuto]
              · rw [hres']; exact get_changed_after_set res v
              · rw [htr2, ht1]
                simp [List.countP_cons, DCall.isMutation]
            · rw [if_neg hr] at hdone
              cases hdone
              have ht1 := Virt.status_ok _ _ _ _ heq
              have hres' : res' = res := by
                cases hok
                rfl
              refine ⟨t1 ++ t1, by simp [List.append_assoc], ?_, Or.inl ⟨hres', ?_⟩⟩
              · rw [ht1]
                simp [List.countP_cons, DCall.isSetAuto]
              · rw [ht1]
                simp [List.countP_cons, DCall.isMutation]
    · rw [if_neg h1] at hdone
      by_cases h2 : p.state = some "shutdown"
      · rw [if_pos h2] at hdone
        split at hdone
        next e t1 heq => cases hdone; simp at hok
        next st t1 heq =>
          by_cases hp : st ≠ "shutdown"
          · rw [if_pos hp] at hdone
            obtain ⟨v, hv1, hres', htr⟩ := transitionStep_done_ok _ _ _ _ _ _ hdone hok
            obtain ⟨hv0, htr2⟩ := Virt.shutdown_ok w (p.name.getD "") v hv1
            have ht1 := Virt.status_ok _ _ _ _ heq
            refine ⟨t1 ++ (Virt.shutdown w (p.name.getD "")).2.2,
              by rw [htr, List.append_assoc], ?_, Or.inr ⟨?_, ?_⟩⟩
            · rw [htr2, ht1]
              simp [List.countP_cons, DCall.isSetAuto]
            · rw [hres']; exact get_changed_after_set res v
            · rw [htr2, ht1]
              simp [List.countP_cons, DCall.isMutation]
          · rw [if_neg hp] at hdone
            cases hdone
            have ht1 := Virt.status_ok _ _ _ _ heq
            have hres' : res' = res := by
              cases hok
              rfl
            refine ⟨t1, rfl, ?_, Or.inl ⟨hres', ?_⟩⟩
            · rw [ht1]
              simp [List.countP_cons, DCall.isSetAuto]
            · rw [ht1]
              simp [List.countP_cons, DCall.isMutation]
      · rw [if_neg h2] at hdone
        by_cases h3 : p.state = some "destroyed"
        · rw [if_pos h3] at hdone
          split at hdone
          next e t1 heq => cases hdone; simp at hok
          next st t1 heq =>
            by_cases hp : st ≠ "shutdown"
            · rw [if_pos hp] at hdone
              obtain ⟨v, hv1, hres', htr⟩ := transitionStep_done_ok _ _ _ _ _ _ hdone hok
              obtain ⟨hv0, htr2⟩ := Virt.destroy_ok w (p.name.getD "") v hv1
              have ht1 := Virt.status_ok _ _ _ _ heq
              refine ⟨t1 ++ (Virt.destroy w (p.name.getD "")).2.2,
                by rw [htr, List.append_assoc], ?_, Or.inr ⟨?_, ?_⟩⟩
              · rw [htr2, ht1]
                simp [List.countP_cons, DCall.isSetAuto]
              · rw [hres']; exact get_changed_after_set res v
              · rw [htr2, ht1]
                simp [List.countP_cons, DCall.isMutation]
            · rw [if_neg hp] at hdone
              cases hdone
              have ht1 := Virt.status_ok _ _ _ _ heq
              have hres' : res' = res := by
                cases hok
                rfl
              refine ⟨t1, rfl, ?_, Or.inl ⟨hres', ?_⟩⟩
              · rw [ht1]
                simp [List.countP_cons, DCall.isSetAuto]
              · rw [ht1]
                simp [List.countP_cons, DCall.isMutation]
        · rw [if_neg h3] at hdone
          by_cases h4 : p.state = some "paused"
          · rw [if_pos h4] at hdone
            split at hdone
            next e t1 heq => cases hdone; simp at hok
            next st t1 heq =>
              by_cases hp : st = "running"
              · rw [if_pos hp] at hdone
                obtain ⟨v, hv1, hres', htr⟩ := transitionStep_done_ok _ _ _ _ _ _ hdone hok
                obtain ⟨hv0, htr2⟩ := Virt.pause_ok w (p.name.getD "") v hv1
                have ht1 := Virt.status_ok _ _ _ _ heq
                refine ⟨t1 ++ (Virt.pause w (p.name.getD "")).2.2,
                  by rw [htr, List.append_assoc], ?_, Or.inr ⟨?_, ?_⟩⟩
                · rw [htr2, ht1]
                  simp [List.countP_cons, DCall.isSetAuto]
                · rw [hres']; exact get_changed_after_set res v
                · rw [htr2, ht1]
                  simp [List.countP_cons, DCall.isMutation]
              · rw [if_neg hp] at hdone
                cases hdone
                have ht1 := Virt.status_ok _ _ _ _ heq
                have hres' : res' = res := by
                  cases hok
                  rfl
                refine ⟨t1, rfl, ?_, Or.inl ⟨hres', ?_⟩⟩
                · rw [ht1]
                  simp [List.countP_cons, DCall.isSetAuto]
                · rw [ht1]
                  simp [List.countP_cons, DCall.isMutation]
          · rw [if_neg h4] at hdone
            cases hdone
            simp at hok

theorem Virt.get_vm_trace (w : World) (g : String) :
    (Virt.get_vm w g).2 = [.openConn, .listAll] := by
  unfold Virt.get_vm
  rcases hf : w.findVM g with _ | vm <;> simp_all

theorem Virt.autostart_ok_true (w : World) (g : String) (f : Bool)
    (h : (Virt.autostart w g f).1 = .ok true) :
    (Virt.autostart w g f).2.2 = [.openConn, .getAutostart g, .setAutostart g f] := by
  unfold Virt.autostart at *
  rcases hf : w.findVM g with _ | vm
  · simp_all
  · by_cases hb : vm.autostart = f <;> simp_all

theorem Virt.autostart_ok_false (w : World) (g : String) (f : Bool)
    (h : (Virt.autostart w g f).1 = .ok false) :
    (Virt.autostart w g f).2.2 = [.openConn, .getAutostart g] := by
  unfold Virt.autostart at *
  rcases hf : w.findVM g with _ | vm
  · simp_all
  · by_cases hb : vm.autostart = f <;> simp_all

theorem transitionStep_done (mres : Except Failure Int × World × Trace) (res : ResD)
    (tr : Trace) (warns : List String) :
    ∃ out, transitionStep mres res tr warns = .done out := by
  rcases mres with ⟨e | v, w', t⟩ <;> exact ⟨_, rfl⟩

/-- The desired-state block always ends the invocation when a state was
requested. -/
theorem coreState_done_of_state (p : Params) (res : ResD) (w : World) (tr : Trace)
    (warns : List String) (hs : truthy p.state = true) :
    ∃ out, coreState p res w tr warns = .done out := by
  unfold coreState
  rw [hs]
  simp only [if_true]
  repeat' (first | exact transitionStep_done _ _ _ _ | exact ⟨_, rfl⟩ | split)

/-- The desired-state block passes everything through untouched when no
state was requested. -/
theorem coreState_cont_spec (p : Params) (res : ResD) (w : World) (tr : Trace)
    (warns : List String) (res2 : ResD) (w2 : World) (tr2 : Trace) (warns2 : List String)
    (h : coreState p res w tr warns = .cont res2 w2 tr2 warns2) :
    res2 = res ∧ w2 = w ∧ tr2 = tr ∧ warns2 = warns ∧ truthy p.state = false := by
  by_cases hs : truthy p.state
  · obtain ⟨out, hout⟩ := coreState_done_of_state p res w tr warns hs
    rw [hout] at h
    cases h
  · unfold coreState at h
    rw [if_neg hs] at h
    cases h
    exact ⟨rfl, rfl, rfl, rfl, by simpa using hs⟩

/-- A `.done` outcome of the desired-state block implies a state was
requested. -/
theorem coreState_done_state (p : Params) (res : ResD) (w : World) (tr : Trace)
    (warns : List String) (out : CoreOut)
    (h : coreState p res w tr warns = .done out) :
    truthy p.state = true := by
  by_cases hs : truthy p.state
  · exact hs
  · unfold coreState at h
    rw [if_neg hs] at h
    cases h

/-- The autostart pre-check block, when it hands control on: a `define`
command skips it entirely; otherwise it contributes only its own
`changed` flag, with a set-autostart call recorded exactly when that flag
is true. -/
theorem coreAutostart_cont_spec (p : Params) (w : World) (res : ResD) (w' : World)
    (tr : Trace) (warns : List String)
    (h : coreAutostart p w = .cont res w' tr warns) :
    (p.command = some "define" → res = []) ∧
    tr.countP DCall.isMutation = tr.countP DCall.isSetAuto ∧
    (res.get "changed" = some (.bool false) → tr.countP DCall.isMutation = 0) ∧
    (res.get "changed" = some (.bool true) → tr.countP DCall.isSetAuto = 1) := by
  unfold coreAutostart at h
  split at h
  case h_2 =>
    cases h
    exact ⟨fun _ => rfl, rfl, by simp [ResD.get], by simp [ResD.get]⟩
  case h_1 x a ha =>
    by_cases hc : p.command = some "define"
    · rw [if_neg (by simp [hc])] at h
      cases h
      exact ⟨fun _ => rfl, rfl, by simp [ResD.get], by simp [ResD.get]⟩
    · rw [if_pos hc] at h
      by_cases hn : truthy p.name
      · rw [if_neg (by simpa using hn)] at h
        by_cases he : ¬ truthy p.command ∧ ¬ truthy p.state
        · simp only [eq_true he, if_true] at h
          split at h
          next g1 tr1 heq1 => cases h
          next e tr1 heq2 hne => cases h
          next vm trA heqA =>
            split at h
            next e w2 trB heqB => cases h
            next b w2 trB heqB => cases h
        · simp only [eq_false he, if_false] at h
          split at h
          next g1 tr1 heq1 => cases h
          next e tr1 heq2 hne => cases h
          next vm trA heqA =>
            split at h
            next e w2 trB heqB => cases h
            next b w2 trB heqB =>
              cases h
              have htA : trA = [DCall.openConn, DCall.listAll] := by
                have hx := Virt.get_vm_trace w (p.name.getD "")
                rw [heqA] at hx
                exact hx
              have h1 : (Virt.autostart w (p.name.getD "") a).1 = .ok b := by rw [heqB]
              have h2 : (Virt.autostart w (p.name.getD "") a).2.2 = trB := by rw [heqB]
              refine ⟨fun hcd => absurd hcd hc, ?_, ?_, ?_⟩ <;> cases b
              all_goals
                first
                | (have htB := Virt.autostart_ok_false _ _ _ h1
                   rw [h2] at htB
                   rw [htA, htB]
                   simp [List.countP_append, List.countP_cons, DCall.isMutation,
                         DCall.isSetAuto, ResD.get])
                | (have htB := Virt.autostart_ok_true _ _ _ h1
                   rw [h2] at htB
                   rw [htA, htB]
                   simp [List.countP_append, List.countP_cons, DCall.isMutation,
                         DCall.isSetAuto, ResD.get])
      · rw [if_pos (by simpa using hn)] at h
        cases h

/-- The autostart pre-check block, when it ends the invocation
successfully (no command and no state were supplied): the result is just
its `changed` flag, with exactly one set-autostart call when true and no
mutation at all when false. -/
theorem coreAutostart_done_ok_spec (p : Params) (w : World) (out : CoreOut) (res' : ResD)
    (h : coreAutostart p w = .done out) (hok : out.result = .ok res') :
    ∃ b, res' = [("changed", RVal.bool b)] ∧
      (b = false → out.trace.countP DCall.isMutation = 0) ∧
      (b = true → out.trace.countP DCall.isSetAuto = 1 ∧
                  out.trace.countP DCall.isMutation = 1) := by
  unfold coreAutostart at h
  split at h
  case h_2 => cases h
  case h_1 x a ha =>
    by_cases hc : p.command = some "define"
    · rw [if_neg (by simp [hc])] at h
      cases h
    · rw [if_pos hc] at h
      by_cases hn : truthy p.name
      · rw [if_neg (by simpa using hn)] at h
        by_cases he : ¬ truthy p.command ∧ ¬ truthy p.state
        · simp only [eq_true he, if_true] at h
          split at h
          next g1 tr1 heq1 => cases h; simp at hok
          next e tr1 heq2 hne => cases h; simp at hok
          next vm trA heqA =>
            split at h
            next e w2 trB heqB => cases h; simp at hok
            next b w2 trB heqB =>
              cases h
              have hres : res' = [("changed", RVal.bool b)] := by
                simpa using hok.symm
              have htA : trA = [DCall.openConn, DCall.listAll] := by
                have hx := Virt.get_vm_trace w (p.name.getD "")
                rw [heqA] at hx
                exact hx
              have h1 : (Virt.autostart w (p.name.getD "") a).1 = .ok b := by rw [heqB]
              have h2 : (Virt.autostart w (p.name.getD "") a).2.2 = trB := by rw [heqB]
              refine ⟨b, hres, ?_, ?_⟩ <;> intro hb <;> subst hb
              · have htB := Virt.autostart_ok_false _ _ _ h1
                rw [h2] at htB
                rw [htA, htB]
                simp [List.countP_append, List.countP_cons, DCall.isMutation, DCall.isSetAuto]
              · have htB := Virt.autostart_ok_true _ _ _ h1
                rw [h2] at htB
                constructor <;>
                  (rw [htA, htB]
                   simp [List.countP_append, List.countP_cons, DCall.isMutation,
                         DCall.isSetAuto])
        · simp only [eq_false he, if_false] at h
          split at h
          next g1 tr1 heq1 => cases h; simp at hok
          next e tr1 heq2 hne => cases h; simp at hok
          next vm trA heqA =>
            split at h
            next e w2 trB heqB => cases h; simp at hok
            next b w2 trB heqB => cases h
      · rw [if_pos (by simpa using hn)] at h
        cases h
        simp at hok

theorem wrapIntCmd_ok (c : String) (r : Except Failure Int × World × Trace)
    (tr : Trace) (warns : List String) (res' : ResD)
    (hok : (wrapIntCmd c r tr warns).result = .ok res') :
    ∃ v, res' = [(c, RVal.int v)] := by
  rcases r with ⟨e | v, w', t⟩ <;> simp [wrapIntCmd] at hok
  exact ⟨v, hok.symm⟩

theorem wrapStrCmd_ok (c : String) (r : Except Failure String × Trace)
    (tr : Trace) (warns : List String) (res' : ResD)
    (hok : (wrapStrCmd c r tr warns).result = .ok res') :
    ∃ s, res' = [(c, RVal.str s)] := by
  rcases r with ⟨e | v, t⟩ <;> simp [wrapStrCmd] at hok
  exact ⟨v, hok.symm⟩

theorem ResD.get_mem (res : ResD) (k : String) (v : RVal) (h : res.get k = some v) :
    ∃ e ∈ res, e.2 = v := by
  induction res with
  | nil => simp [ResD.get] at h
  | cons e t ih =>
      by_cases he : e.1 = k
      · simp only [ResD.get, he, if_true, Option.some.injEq] at h
        exact ⟨e, by simp, h⟩
      · simp only [ResD.get, he, if_false] at h
        obtain ⟨e', he', hv⟩ := ih h
        exact ⟨e', by simp [he'], hv⟩

/-- Every value in a successful `Virt.info` result dict is itself a
per-VM dict. -/
theorem infoEntries_ok_dicts (w : World) (names : List String) (d : List (String × RVal))
    (tr : Trace) (h : Virt.infoEntries w names = (.ok d, tr)) :
    ∀ e ∈ d, ∃ dd, e.2 = RVal.dict dd := by
  induction names generalizing d tr with
  | nil =>
      unfold Virt.infoEntries at h
      simp only [Prod.mk.injEq, Except.ok.injEq] at h
      obtain ⟨h1, _⟩ := h
      subst h1
      simp
  | cons n rest ih =>
      unfold Virt.infoEntries at h
      split at h
      next heq => simp at h
      next vm heq =>
        by_cases hs : vm.statusFails
        · rw [if_pos hs] at h
          simp at h
        · rw [if_neg hs] at h
          split at h
          next e tr2 heq2 => simp at h
          next d2 tr2 heq2 =>
            simp only [Prod.mk.injEq, Except.ok.injEq] at h
            obtain ⟨h1, _⟩ := h
            subst h1
            intro e he
            rcases List.mem_cons.1 he with rfl | hmem
            · exact ⟨_, rfl⟩
            · exact ih d2 tr2 heq2 e hmem

theorem defineAutostartTail_ok (aut : Option Bool) (w : World) (dn : String)
    (res1 : ResD) (tracc : Trace) (warns1 : List String) (res' : ResD)
    (hok : (defineAutostartTail aut w dn res1 tracc warns1).result = .ok res') :
    res' = res1 ∨
    res' = [("changed", RVal.bool true), ("change_reason", RVal.str "autostart")] := by
  unfold defineAutostartTail at hok
  split at hok
  case h_2 => simp at hok; exact Or.inl hok.symm
  case h_1 a =>
    split at hok
    next e w2 t3 heqB => simp at hok
    next b w2 t3 heqB =>
      simp only at hok
      cases b
      · simp at hok; exact Or.inl hok.symm
      · simp at hok; exact Or.inr hok.symm

/-- A successful `define` command never reports `changed=false`
explicitly (the key is either absent or true). -/
theorem coreDefine_ok_changed (p : Params) (res : ResD) (w : World) (tr : Trace)
    (warns : List String) (res' : ResD) (hres : res = [])
    (hok : (coreDefine p res w tr warns).result = .ok res') :
    res'.get "changed" ≠ some (.bool false) := by
  subst hres
  unfold coreDefine at hok
  by_cases hx : truthy p.xml
  · rw [if_neg (by simpa using hx)] at hok
    unfold coreDefineBody at hok
    split at hok
    next heqN => simp at hok
    next domainName heqN =>
      split at hok
      next e heqE =>
        split at hok
        next n w2 t2 heqD =>
          simp only [] at hok
          rcases defineAutostartTail_ok _ _ _ _ _ _ _ hok with h1 | h1 <;> subst h1 <;>
            simp [ResD.get]
        next code m w2 t2 heqD =>
          by_cases h9 : code ≠ 9
          · rw [if_pos h9] at hok
            simp at hok
          · rw [if_neg h9] at hok
            simp only [] at hok
            rcases defineAutostartTail_ok _ _ _ _ _ _ _ hok with h1 | h1 <;> subst h1 <;>
              simp [ResD.get]
        next e2 w2 t2 hne heqD => simp at hok
      next vm heqE =>
        split at hok
        next n w2 t2 heqD =>
          simp only [] at hok
          rcases defineAutostartTail_ok _ _ _ _ _ _ _ hok with h1 | h1
          · subst h1
            split
            next hne => simp [ResD.get]
            next hne => simp [ResD.get]
          · subst h1
            simp [ResD.get]
        next code m w2 t2 heqD =>
          by_cases h9 : code ≠ 9
          · rw [if_pos h9] at hok
            simp at hok
          · rw [if_neg h9] at hok
            simp only [] at hok
            rcases defineAutostartTail_ok _ _ _ _ _ _ _ hok with h1 | h1 <;> subst h1 <;>
              simp [ResD.get]
        next e2 w2 t2 hne heqD => simp at hok
  · rw [if_pos (by simpa using hx)] at hok
    simp at hok

theorem Virt.info_ok_dicts (w : World) (d : List (String × RVal))
    (h : (Virt.info w).1 = .ok d) :
    ∀ e ∈ d, ∃ dd, e.2 = RVal.dict dd := by
  unfold Virt.info at h
  rcases hlv : Virt.list_vms w none with ⟨names, trv⟩
  rw [hlv] at h
  simp only [] at h
  split at h
  next e tr2 heq => simp at h
  next d2 tr2 heq =>
    simp only [] at h
    cases h
    exact infoEntries_ok_dicts w names _ tr2 heq

/-- A successful command-block result never carries an explicit
`changed=false`: every wrapped result is keyed by the command name, info
dicts are keyed by VM names with dict values, and define reports either
nothing or `changed=true`. -/
theorem coreCommand_ok_changed (p : Params) (res : ResD) (w : World) (tr : Trace)
    (warns : List String) (res' : ResD)
    (hdef : p.command = some "define" → res = [])
    (hok : (coreCommand p res w tr warns).result = .ok res') :
    res'.get "changed" ≠ some (.bool false) := by
  unfold coreCommand at hok
  by_cases hcT : truthy p.command
  · rw [if_pos hcT] at hok
    by_cases hvm : (p.command.getD "") ∈ VM_COMMANDS
    · rw [if_pos hvm] at hok
      by_cases hdf : p.command.getD "" = "define"
      · rw [if_pos hdf] at hok
        have hres : res = [] := by
          apply hdef
          rcases hc0 : p.command with _ | c0
          · rw [hc0] at hcT
            simp [truthy] at hcT
          · rw [hc0] at hdf
            simp at hdf
            rw [hdf]
        exact coreDefine_ok_changed p res w tr warns res' hres hok
      · rw [if_neg hdf] at hok
        by_cases hn : truthy p.name
        · rw [if_neg (by simpa using hn)] at hok
          by_cases hu : p.command.getD "" = "undefine"
          · rw [if_pos hu] at hok
            rcases hcomp : composeUndefineFlag p.flags p.force with ⟨fr, warned⟩
            rw [hcomp] at hok
            simp only [] at hok
            cases fr with
            | error m => simp at hok
            | ok flag =>
                simp only [] at hok
                split at hok
                next e w2 t1 heqU => simp at hok
                next v w2 t1 heqU =>
                  have hres2 : res' = [("undefine", RVal.int v)] := by
                    simpa using hok.symm
                  rw [hres2]
                  simp [ResD.get]
          · rw [if_neg hu] at hok
            by_cases h1 : p.command.getD "" = "create"
            · rw [if_pos h1] at hok
              obtain ⟨v, hr⟩ := wrapIntCmd_ok _ _ _ _ _ hok
              rw [hr, h1]
              simp [ResD.get]
            · rw [if_neg h1] at hok
              by_cases h2 : p.command.getD "" = "start"
              · rw [if_pos h2] at hok
                obtain ⟨v, hr⟩ := wrapIntCmd_ok _ _ _ _ _ hok
                rw [hr, h2]
                simp [ResD.get]
              · rw [if_neg h2] at hok
                by_cases h3 : p.command.getD "" = "destroy"
                · rw [if_pos h3] at hok
                  obtain ⟨v, hr⟩ := wrapIntCmd_ok _ _ _ _ _ hok
                  rw [hr, h3]
                  simp [ResD.get]
                · rw [if_neg h3] at hok
                  by_cases h4 : p.command.getD "" = "shutdown"
                  · rw [if_pos h4] at hok
                    obtain ⟨v, hr⟩ := wrapIntCmd_ok _ _ _ _ _ hok
                    rw [hr, h4]
                    simp [ResD.get]
                  · rw [if_neg h4] at hok
                    by_cases h5 : p.command.getD "" = "pause"
                    · rw [if_pos h5] at hok
                      obtain ⟨v, hr⟩ := wrapIntCmd_ok _ _ _ _ _ hok
                      rw [hr, h5]
                      simp [ResD.get]
                    · rw [if_neg h5] at hok
                      by_cases h6 : p.command.getD "" = "unpause"
                      · rw [if_pos h6] at hok
                        obtain ⟨v, hr⟩ := wrapIntCmd_ok _ _ _ _ _ hok
                        rw [hr, h6]
                        simp [ResD.get]
                      · rw [if_neg h6] at hok
                        by_cases h7 : p.command.getD "" = "status"
                        · rw [if_pos h7] at hok
                          obtain ⟨sv, hr⟩ := wrapStrCmd_ok _ _ _ _ _ hok
                          rw [hr, h7]
                          simp [ResD.get]
                        · rw [if_neg h7] at hok
                          by_cases h8 : p.command.getD "" = "get_xml"
                          · rw [if_pos h8] at hok
                            obtain ⟨sv, hr⟩ := wrapStrCmd_ok _ _ _ _ _ hok
                            rw [hr, h8]
                            simp [ResD.get]
                          · rw [if_neg h8] at hok
                            simp at hok
        · rw [if_pos (by simpa using hn)] at hok
          simp at hok
    · rw [if_neg hvm] at hok
      by_cases h1 : p.command.getD "" = "freemem"
      · rw [if_pos h1] at hok
        simp only [Virt.freemem] at hok
        simp at hok
        rw [← hok]
        simp [ResD.get]
      · rw [if_neg h1] at hok
        by_cases h2 : p.command.getD "" = "info"
        · rw [if_pos h2] at hok
          split at hok
          next e t1 heqI => simp at hok
          next d t1 heqI =>
            simp at hok
            subst hok
            intro hch
            obtain ⟨e, he, hv⟩ := ResD.get_mem _ _ _ hch
            obtain ⟨dd, hdd⟩ := Virt.info_ok_dicts w d (by rw [heqI]) e he
            rw [hv] at hdd
            cases hdd
        · rw [if_neg h2] at hok
          by_cases h3 : p.command.getD "" = "list_vms"
          · rw [if_pos h3] at hok
            rcases hlv : Virt.list_vms w none with ⟨l, t1⟩
            rw [hlv] at hok
            simp at hok
            rw [← hok]
            simp [ResD.get]
          · rw [if_neg h3] at hok
            by_cases h4 : p.command.getD "" = "nodeinfo"
            · rw [if_pos h4] at hok
              simp only [Virt.nodeinfo] at hok
              simp at hok
              rw [← hok]
              simp [ResD.get]
            · rw [if_neg h4] at hok
              by_cases h5 : p.command.getD "" = "virttype"
              · rw [if_pos h5] at hok
                simp only [Virt.virttype] at hok
                simp at hok
                rw [← hok]
                simp [ResD.get]
              · rw [if_neg h5] at hok
                by_cases h6 : p.command.getD "" = "state"
                · rw [if_pos h6] at hok
                  split at hok
                  next e t1 heqS => simp at hok
                  next l t1 heqS =>
                    simp at hok
                    rw [← hok]
                    simp [ResD.get]
                · rw [if_neg h6] at hok
                  by_cases h7 : p.command.getD "" ∈ virtAttrNames
                  · rw [if_pos h7] at hok
                    simp at hok
                  · rw [if_neg h7] at hok
                    simp at hok
  · rw [if_neg hcT] at hok
    simp at hok

theorem flag_foldl_count (fl : List String) (a : Nat) :
    fl.foldl (fun acc item => acc + ENTRY_UNDEFINE_FLAGS_MAP item) a =
      a + fl.count "managed_save" * 1 + fl.count "snapshots_metadata" * 2 +
        fl.count "nvram" * 4 + fl.count "keep_nvram" * 8 +
        fl.count "checkpoints_metadata" * 16 := by
  induction fl generalizing a with
  | nil => simp
  | cons s t ih =>
      rw [List.foldl_cons, ih]
      by_cases h1 : s = "managed_save"
      · subst h1
        simp [ENTRY_UNDEFINE_FLAGS_MAP, List.count_cons]
        try omega
      · by_cases h2 : s = "snapshots_metadata"
        · subst h2
          simp [ENTRY_UNDEFINE_FLAGS_MAP, List.count_cons]
          try omega
        · by_cases h3 : s = "nvram"
          · subst h3
            simp [ENTRY_UNDEFINE_FLAGS_MAP, List.count_cons]
            try omega
          · by_cases h4 : s = "keep_nvram"
            · subst h4
              simp [ENTRY_UNDEFINE_FLAGS_MAP, List.count_cons]
              try omega
            · by_cases h5 : s = "checkpoints_metadata"
              · subst h5
                simp [ENTRY_UNDEFINE_FLAGS_MAP, List.count_cons]
                try omega
              · simp [ENTRY_UNDEFINE_FLAGS_MAP, h1, h2, h3, h4, h5, List.count_cons]
                try omega

/- ### Claims -/

/-- C4 counterexample: the claim says composing an EMPTY flag set with
force=true yields mask 23, but the code takes the `flags is not None`
branch for an empty list, ignores force (warning) and returns mask 0. -/
theorem C4_counterexample :
    composeUndefineFlag (some []) (some true) = (.ok 0, true) ∧
    (Except.ok 0 : Except String Nat) ≠ .ok 23 := by
  constructor
  · rfl
  · simp

/-- C4 (amended): with flags ABSENT, force=true gives mask 23 and any
other force gives 0; whenever a flag LIST is supplied — even an empty
one — force is ignored (with a warning exactly when force=true) and the
mask is the sum of the recognized tokens' bit values (1, 2, 4, 8, 16 per
occurrence), unrecognized tokens contributing 0. -/
theorem C4_flag_composer (fl : List String) (force : Option Bool)
    (hnc : ¬ ("nvram" ∈ fl ∧ "keep_nvram" ∈ fl)) :
    composeUndefineFlag none (some true) = (.ok 23, false) ∧
    (∀ f : Option Bool, f ≠ some true → composeUndefineFlag none f = (.ok 0, false)) ∧
    composeUndefineFlag (some fl) force =
      (.ok (fl.count "managed_save" * 1 + fl.count "snapshots_metadata" * 2 +
            fl.count "nvram" * 4 + fl.count "keep_nvram" * 8 +
            fl.count "checkpoints_metadata" * 16),
       decide (force = some true)) := by
  refine ⟨rfl, ?_, ?_⟩
  · intro f hf
    simp [composeUndefineFlag, hf]
  · simp only [composeUndefineFlag, hnc, if_false]
    rw [flag_foldl_count]
    simp

/-- C4 witness: concrete instances of the amended claim. -/
theorem C4_flag_composer_witness :
    composeUndefineFlag (some ["managed_save"]) (some true) = (.ok 1, true) ∧
    composeUndefineFlag none (some true) = (.ok 23, false) := by
  have h := C4_flag_composer ["managed_save"] (some true) (by simp)
  exact ⟨by simpa using h.2.2, h.1⟩

/-- C5: whenever the supplied flag list contains both nvram and
keep_nvram, the undefine branch raises the mutual-exclusion ValueError
regardless of any other tokens and of force, and no undefine (indeed no
driver call at all) is issued. -/
theorem C5_conflicting_flags (fl : List String) (force : Option Bool) (w : World)
    (g : String) (hg : g ≠ "") (h1 : "nvram" ∈ fl) (h2 : "keep_nvram" ∈ fl) :
    (composeUndefineFlag (some fl) force).1 =
      .error "Flags nvram and keep_nvram are mutually exclusive" ∧
    (core { command := some "undefine", name := some g, flags := some fl,
            force := force } w).result =
      .error (.valueError "Flags nvram and keep_nvram are mutually exclusive") ∧
    (core { command := some "undefine", name := some g, flags := some fl,
            force := force } w).trace = [] := by
  refine ⟨by simp [composeUndefineFlag, h1, h2], ?_, ?_⟩ <;>
    simp [core, coreAutostart, coreState, coreCommand, truthy, hg,
          composeUndefineFlag, h1, h2, VM_COMMANDS]

/-- C5 witness: a concrete conflicting invocation. -/
theorem C5_conflicting_flags_witness :
    (core { command := some "undefine", name := some "alpha",
            flags := some ["nvram", "keep_nvram"], force := some true }
        { vms := [], normalizeXML := id }).result =
      .error (.valueError "Flags nvram and keep_nvram are mutually exclusive") :=
  (C5_conflicting_flags ["nvram", "keep_nvram"] (some true)
    { vms := [], normalizeXML := id } "alpha" (by decide)
    (by simp) (by simp)).2.1

/-- C10: `stop` is listed among the VM-scoped commands, yet the `Virt`
class implements no method of that name, so (with no state and no
autostart also requested) invoking command `stop` on any guest always
fails with an AttributeError before any driver call is made. -/
theorem C10_stop_unimplemented (w : World) (g : String) (hg : g ≠ "") :
    "stop" ∈ VM_COMMANDS ∧
    (core { command := some "stop", name := some g } w).result =
      .error (.attrError "stop") ∧
    (core { command := some "stop", name := some g } w).trace = [] := by
  refine ⟨by simp [VM_COMMANDS], ?_, ?_⟩ <;>
    simp [core, coreAutostart, coreState, coreCommand, truthy, hg, VM_COMMANDS]

/-- C10 witness: a concrete `stop` invocation. -/
theorem C10_stop_unimplemented_witness :
    (core { command := some "stop", name := some "alpha" }
        { vms := [], normalizeXML := id }).result = .error (.attrError "stop") :=
  (C10_stop_unimplemented { vms := [], normalizeXML := id } "alpha" (by decide)).2.1

theorem filterMap_filter_name (l : List VM) (s : String) :
    (l.filterMap (fun x => if x.statusFails then none
        else if VIRT_STATE_NAME_MAP x.stateCode = s then some x.name else none)) =
    (l.filter (fun vm => !vm.statusFails &&
        (VIRT_STATE_NAME_MAP vm.stateCode = s))).map VM.name := by
  induction l with
  | nil => rfl
  | cons x t ih =>
      by_cases hf : x.statusFails
      · simp [List.filterMap_cons, List.filter_cons, hf, ih]
      · by_cases hst : VIRT_STATE_NAME_MAP x.stateCode = s
        · simp [List.filterMap_cons, List.filter_cons, hf, hst, ih]
        · simp [List.filterMap_cons, List.filter_cons, hf, hst, ih]

theorem filterMap_some_name (l : List VM) :
    l.filterMap (fun x => some x.name) = l.map VM.name := by
  induction l with
  | nil => rfl
  | cons x t ih => simp [List.filterMap_cons, ih]

/-- Sample world for witnesses: one running, one failing, one paused VM. -/
def vmRun : VM :=
  { name := "r", stateCode := 1, autostart := false, inactiveXML := "" }

def vmFail : VM :=
  { name := "f", stateCode := 1, autostart := false, inactiveXML := "", statusFails := true }

def vmPau : VM :=
  { name := "p", stateCode := 3, autostart := false, inactiveXML := "" }

def wSix : World := { vms := [vmRun, vmFail, vmPau], normalizeXML := id }

/-- C6: list_vms with a (truthy) status filter returns exactly the names
of the enumerated VMs whose status lookup succeeds and equals the
filter — VMs whose per-item status lookup raises are omitted and no
error is surfaced — and with no filter it returns all enumerated
names. -/
theorem C6_list_vms (w : World) (s : String) (hs : s ≠ "") :
    (core { state := some s, command := some "list_vms" } w).result =
      .ok [("list_vms", RVal.list
        ((w.vms.filter (fun vm => !vm.statusFails &&
            (VIRT_STATE_NAME_MAP vm.stateCode = s))).map VM.name))] ∧
    (core { command := some "list_vms" } w).result =
      .ok [("list_vms", RVal.list (w.vms.map VM.name))] := by
  constructor
  · simp only [core, truthy, Virt.list_vms]
    simp [hs]
    simpa using filterMap_filter_name w.vms s
  · simp [core, coreAutostart, coreState, coreCommand, truthy, Virt.list_vms,
          VM_COMMANDS]
    simpa using filterMap_some_name w.vms

/-- C6 witness: on a concrete world the failing VM is omitted and only
the running VM is reported. -/
theorem C6_list_vms_witness :
    (core { state := some "running", command := some "list_vms" } wSix).result =
      .ok [("list_vms", RVal.list ["r"])] ∧
    (core { command := some "list_vms" } wSix).result =
      .ok [("list_vms", RVal.list ["r", "f", "p"])] := by
  have h := C6_list_vms wSix "running" (by decide)
  refine ⟨?_, ?_⟩
  · have h1 := h.1
    simpa [wSix, vmRun, vmFail, vmPau, VIRT_STATE_NAME_MAP] using h1
  · have h2 := h.2
    simpa [wSix, vmRun, vmFail, vmPau] using h2

/-- C2 counterexample: a plain `destroy` command issues a destroy driver
call (a mutation) yet returns a result dict with NO `changed` field at
all, so "changed=false or no changed field implies no mutating call" is
false as stated. -/
theorem C2_counterexample :
    (core { command := some "destroy", name := some "r" } wSix).result =
      .ok [("destroy", RVal.int 0)] ∧
    ResD.get [("destroy", RVal.int 0)] "changed" = none ∧
    (core { command := some "destroy", name := some "r" } wSix).trace.countP
      DCall.isMutation = 1 := by
  refine ⟨rfl, rfl, rfl⟩

/-- C2 (amended): restricted to the `changed` field being explicitly
present and false: for every invocation whose successful result carries
`changed=false`, no mutating driver call was issued during the
invocation.  (A result with no `changed` field — e.g. any wrapped
imperative command — does not carry this guarantee.) -/
theorem C2_changed_false_no_mutation (p : Params) (w : World) (res : ResD)
    (hok : (core p w).result = .ok res)
    (hch : res.get "changed" = some (.bool false)) :
    (core p w).trace.countP DCall.isMutation = 0 := by
  unfold core at hok ⊢
  by_cases hl : truthy p.state ∧ p.command = some "list_vms"
  · rw [if_pos hl] at hok ⊢
    simp only [] at hok
    simp at hok
    rw [← hok] at hch
    simp [ResD.get] at hch
  · rw [if_neg hl] at hok ⊢
    rcases hA : coreAutostart p w with ⟨out⟩ | ⟨res1, w1, tr1, warns1⟩
    · simp only [hA] at hok ⊢
      obtain ⟨b, hres, hf, ht⟩ := coreAutostart_done_ok_spec p w out res hA hok
      have hb : b = false := by
        rw [hres] at hch
        simpa [ResD.get] using hch
      exact hf hb
    · simp only [hA] at hok ⊢
      rcases hS : coreState p res1 w1 tr1 warns1 with ⟨out⟩ | ⟨res2, w2, tr2, warns2⟩
      · simp only [hS] at hok ⊢
        have hsT := coreState_done_state p res1 w1 tr1 warns1 out hS
        obtain ⟨Δ, htr, hsa, hcase⟩ :=
          coreState_ok_cases p res1 w1 tr1 warns1 out res hsT hS hok
        obtain ⟨hdef1, hmeq, hf1, ht1⟩ := coreAutostart_cont_spec p w res1 w1 tr1 warns1 hA
        rcases hcase with ⟨hrr, hΔ⟩ | ⟨hct, _⟩
        · rw [hrr] at hch
          rw [htr, List.countP_append, hΔ, hf1 hch]
        · rw [hct] at hch
          simp at hch
      · simp only [hS] at hok ⊢
        obtain ⟨hr12, hw12, ht12, hwn12, hsF⟩ :=
          coreState_cont_spec p res1 w1 tr1 warns1 res2 w2 tr2 warns2 hS
        obtain ⟨hdef1, hmeq, hf1, ht1⟩ := coreAutostart_cont_spec p w res1 w1 tr1 warns1 hA
        have hdef2 : p.command = some "define" → res2 = [] := by
          intro hc
          rw [hr12]
          exact hdef1 hc
        exact absurd hch (coreCommand_ok_changed p res2 w2 tr2 warns2 res hdef2 hok)

/-- C2 witness: an invocation whose result is exactly `changed=false`
(an autostart request already satisfied) indeed has a mutation-free
trace. -/
theorem C2_changed_false_no_mutation_witness :
    (core { autostart := some false, name := some "r" } wSix).trace.countP
      DCall.isMutation = 0 :=
  C2_changed_false_no_mutation { autostart := some false, name := some "r" } wSix
    [("changed", RVal.bool false)] rfl rfl

/-- Parameters of the C8 counterexample invocation: an autostart toggle
together with a destroy command. -/
def pEight : Params :=
  { autostart := some true, name := some "r", command := some "destroy" }

/-- C8 counterexample: the autostart pre-check sets `changed=true` (a
set-autostart call is made), but a VM command supplied in the same
invocation replaces the result dict with its wrapped return, DROPPING
the changed field before the invocation returns — so "once set to true
it is never ... dropped from the result" is false as stated. -/
theorem C8_counterexample :
    stepRes (coreAutostart pEight wSix) = some [("changed", RVal.bool true)] ∧
    (core pEight wSix).result = .ok [("destroy", RVal.int 0)] ∧
    ResD.get [("destroy", RVal.int 0)] "changed" = none ∧
    DCall.setAutostart "r" true ∈ (core pEight wSix).trace := by
  refine ⟨rfl, rfl, rfl, by decide⟩

/-- C8 (amended): the changed flag is never RESET to false: on the
desired-state path a previously set `changed=true` is preserved to the
returned result, and a returned `changed=false` can only come from a
stage that already had it false.  (It can however be DROPPED when a VM
command's wrapped result replaces the result dict — see the
counterexample.) -/
theorem C8_changed_monotone (p : Params) (res : ResD) (w : World) (tr : Trace)
    (warns : List String) (out : CoreOut) (res' : ResD)
    (hs : truthy p.state = true)
    (hdone : coreState p res w tr warns = .done out)
    (hok : out.result = .ok res') :
    (res.get "changed" = some (.bool true) → res'.get "changed" = some (.bool true)) ∧
    (res'.get "changed" = some (.bool false) → res.get "changed" = some (.bool false)) := by
  obtain ⟨Δ, htr, hsa, hcase⟩ := coreState_ok_cases p res w tr warns out res' hs hdone hok
  rcases hcase with ⟨hrr, _⟩ | ⟨hct, _⟩
  · rw [hrr]
    exact ⟨fun h => h, fun h => h⟩
  · refine ⟨fun _ => hct, fun hf => ?_⟩
    rw [hct] at hf
    simp at hf

/-- C8 witness: a concrete desired-state run that preserves a previously
set `changed=true`. -/
theorem C8_changed_monotone_witness :
    ResD.get [("changed", RVal.bool true), ("msg", RVal.int 0)] "changed" =
      some (RVal.bool true) :=
  (C8_changed_monotone { state := some "shutdown", name := some "r" }
      [("changed", RVal.bool true)] wSix [] []
      ⟨.ok [("changed", RVal.bool true), ("msg", RVal.int 0)],
       [DCall.openConn, DCall.listAll, DCall.getInfo "r",
        DCall.openConn, DCall.listAll, DCall.shutdown "r"], []⟩
      [("changed", RVal.bool true), ("msg", RVal.int 0)] rfl rfl rfl).1 rfl

/-- C9 counterexample: resuming a paused VM (desired state `running`)
opens TWO hypervisor connections in one invocation — one for the status
query and one for the resume — so "the connection is acquired at most
once per invocation and reused" is false as stated. -/
theorem C9_counterexample :
    countOpen (core { state := some "running", name := some "p" } wSix).trace = 2 ∧
    ¬ (2 : Nat) ≤ 1 := by
  refine ⟨rfl, by decide⟩

/-- C9 (amended): the connection is indeed acquired lazily (none is
opened before the first driver-facing method call) but it is NOT reused:
every `Virt` method call opens its own fresh connection, so the
status-query + resume sequence for a paused VM opens exactly two
connections, one at the head of each method's calls. -/
theorem C9_connection_per_call (w : World) (g : String) (vm : VM) (hg : g ≠ "")
    (hfind : w.findVM g = some vm) (hsf : vm.statusFails = false)
    (hst : VIRT_STATE_NAME_MAP vm.stateCode = "paused") :
    (core { state := some "running", name := some g } w).trace =
      [DCall.openConn, DCall.listAll, DCall.getInfo g,
       DCall.openConn, DCall.listAll, DCall.resume g] ∧
    countOpen (core { state := some "running", name := some g } w).trace = 2 := by
  have htr : (core { state := some "running", name := some g } w).trace =
      [DCall.openConn, DCall.listAll, DCall.getInfo g,
       DCall.openConn, DCall.listAll, DCall.resume g] := by
    simp [core, coreAutostart, coreState, transitionStep, Virt.status, Virt.unpause,
          truthy, hg, hfind, hsf, hst]
  refine ⟨htr, ?_⟩
  rw [htr]
  simp [countOpen, List.countP_cons]

/-- C9 witness: the two-connection trace on a concrete paused VM. -/
theorem C9_connection_per_call_witness :
    (core { state := some "running", name := some "p" } wSix).trace =
      [DCall.openConn, DCall.listAll, DCall.getInfo "p",
       DCall.openConn, DCall.listAll, DCall.resume "p"] :=
  (C9_connection_per_call wSix "p" vmPau (by decide) rfl rfl rfl).1

/-- C1: in desired-state mode (guest name given, no autostart, no
command) the engine follows the state-transition table exactly: desired
`running` resumes a paused VM, starts a VM in any other non-running
status, and does nothing for a running VM; desired `shutdown` does a
graceful stop unless already shut down; desired `destroyed` does a force
stop unless already shut down; desired `paused` pauses only a running
VM; each action case reports `changed=true` with exactly that one
mutating driver call, each no-op case reports no change and performs no
mutating call; any other desired-state token fails with the
"unexpected state" error. -/
theorem C1_state_table (w : World) (g : String) (vm : VM) (hg : g ≠ "")
    (hfind : w.findVM g = some vm) (hsf : vm.statusFails = false) :
    (VIRT_STATE_NAME_MAP vm.stateCode = "paused" →
       (core { state := some "running", name := some g } w).result =
         .ok [("changed", RVal.bool true), ("msg", RVal.int 0)] ∧
       (core { state := some "running", name := some g } w).trace.filter
         DCall.isMutation = [DCall.resume g]) ∧
    (VIRT_STATE_NAME_MAP vm.stateCode ≠ "paused" →
     VIRT_STATE_NAME_MAP vm.stateCode ≠ "running" →
       (core { state := some "running", name := some g } w).result =
         .ok [("changed", RVal.bool true), ("msg", RVal.int 0)] ∧
       (core { state := some "running", name := some g } w).trace.filter
         DCall.isMutation = [DCall.start g]) ∧
    (VIRT_STATE_NAME_MAP vm.stateCode = "running" →
       (core { state := some "running", name := some g } w).result = .ok [] ∧
       finalChanged [] = false ∧
       (core { state := some "running", name := some g } w).trace.filter
         DCall.isMutation = []) ∧
    (VIRT_STATE_NAME_MAP vm.stateCode ≠ "shutdown" →
       (core { state := some "shutdown", name := some g } w).result =
         .ok [("changed", RVal.bool true), ("msg", RVal.int 0)] ∧
       (core { state := some "shutdown", name := some g } w).trace.filter
         DCall.isMutation = [DCall.shutdown g]) ∧
    (VIRT_STATE_NAME_MAP vm.stateCode = "shutdown" →
       (core { state := some "shutdown", name := some g } w).result = .ok [] ∧
       (core { state := some "shutdown", name := some g } w).trace.filter
         DCall.isMutation = []) ∧
    (VIRT_STATE_NAME_MAP vm.stateCode ≠ "shutdown" →
       (core { state := some "destroyed", name := some g } w).result =
         .ok [("changed", RVal.bool true), ("msg", RVal.int 0)] ∧
       (core { state := some "destroyed", name := some g } w).trace.filter
         DCall.isMutation = [DCall.destroy g]) ∧
    (VIRT_STATE_NAME_MAP vm.stateCode = "shutdown" →
       (core { state := some "destroyed", name := some g } w).result = .ok [] ∧
       (core { state := some "destroyed", name := some g } w).trace.filter
         DCall.isMutation = []) ∧
    (VIRT_STATE_NAME_MAP vm.stateCode = "running" →
       (core { state := some "paused", name := some g } w).result =
         .ok [("changed", RVal.bool true), ("msg", RVal.int 0)] ∧
       (core { state := some "paused", name := some g } w).trace.filter
         DCall.isMutation = [DCall.suspend g]) ∧
    (VIRT_STATE_NAME_MAP vm.stateCode ≠ "running" →
       (core { state := some "paused", name := some g } w).result = .ok [] ∧
       (core { state := some "paused", name := some g } w).trace.filter
         DCall.isMutation = []) ∧
    (∀ s : String, s ≠ "" → s ∉ ["running", "shutdown", "destroyed", "paused"] →
       (core { state := some s, name := some g } w).result =
         .error (.failJson "unexpected state")) := by
  refine ⟨?_, ?_, ?_, ?_, ?_, ?_, ?_, ?_, ?_, ?_⟩
  · intro hst
    constructor <;>
      simp [core, coreAutostart, coreState, transitionStep, Virt.status, Virt.unpause,
            truthy, hg, hfind, hsf, hst, ResD.set, DCall.isMutation]
  · intro hp hr
    constructor <;>
      simp [core, coreAutostart, coreState, transitionStep, Virt.status, Virt.start,
            Virt.create, truthy, hg, hfind, hsf, hp, hr, ResD.set, DCall.isMutation]
  · intro hst
    refine ⟨?_, rfl, ?_⟩ <;>
      simp [core, coreAutostart, coreState, transitionStep, Virt.status,
            truthy, hg, hfind, hsf, hst, DCall.isMutation]
  · intro hst
    constructor <;>
      simp [core, coreAutostart, coreState, transitionStep, Virt.status, Virt.shutdown,
            truthy, hg, hfind, hsf, hst, ResD.set, DCall.isMutation]
  · intro hst
    constructor <;>
      simp [core, coreAutostart, coreState, transitionStep, Virt.status,
            truthy, hg, hfind, hsf, hst, DCall.isMutation]
  · intro hst
    constructor <;>
      simp [core, coreAutostart, coreState, transitionStep, Virt.status, Virt.destroy,
            truthy, hg, hfind, hsf, hst, ResD.set, DCall.isMutation]
  · intro hst
    constructor <;>
      simp [core, coreAutostart, coreState, transitionStep, Virt.status,
            truthy, hg, hfind, hsf, hst, DCall.isMutation]
  · intro hst
    constructor <;>
      simp [core, coreAutostart, coreState, transitionStep, Virt.status, Virt.pause,
            truthy, hg, hfind, hsf, hst, ResD.set, DCall.isMutation]
  · intro hst
    constructor <;>
      simp [core, coreAutostart, coreState, transitionStep, Virt.status,
            truthy, hg, hfind, hsf, hst, DCall.isMutation]
  · intro s hs hmem
    have hm : s ≠ "running" ∧ s ≠ "shutdown" ∧ s ≠ "destroyed" ∧ s ≠ "paused" := by
      simpa using hmem
    obtain ⟨m1, m2, m3, m4⟩ := hm
    simp [core, coreAutostart, coreState, truthy, hg, hs, m1, m2, m3, m4]

/-- C1 witness: the paused→running row on a concrete world. -/
theorem C1_state_table_witness :
    (core { state := some "running", name := some "p" } wSix).result =
      .ok [("changed", RVal.bool true), ("msg", RVal.int 0)] :=
  ((C1_state_table wSix "p" vmPau (by decide) rfl rfl).1 rfl).1

theorem find_map_setAuto (l : List VM) (g : String) (vm : VM) (b : Bool)
    (hfind : l.find? (fun v => v.name = g) = some vm) :
    (l.map (fun v => if v.name = g then { v with autostart := b } else v)).find?
      (fun v => v.name = g) = some { vm with autostart := b } := by
  induction l with
  | nil => simp at hfind
  | cons x t ih =>
      by_cases hx : x.name = g
      · rw [List.find?_cons_of_pos _ (by simpa using hx)] at hfind
        cases hfind
        simp only [List.map_cons, if_pos hx]
        rw [List.find?_cons_of_pos _ (by simpa using hx)]
      · rw [List.find?_cons_of_neg _ (by simpa using hx)] at hfind
        simp only [List.map_cons, if_neg hx]
        rw [List.find?_cons_of_neg _ (by simpa using hx)]
        exact ih hfind

theorem findVM_setAuto (w : World) (g : String) (vm : VM) (b : Bool)
    (hfind : w.findVM g = some vm) :
    (w.setAuto g b).findVM g = some { vm with autostart := b } := by
  unfold World.findVM World.setAuto at *
  exact find_map_setAuto w.vms g vm b hfind

/-- C7: autostart handling is idempotent and independent of the status
transition: with the supplied flag equal to the VM's current setting,
no set-autostart call is issued and the check reports `changed=false`;
with a differing flag, exactly one set-autostart call is issued and
`changed=true` is reported; and the check still runs (its call count
unchanged, its `changed=true` surviving) when a desired-state transition
occurs in the same invocation. -/
theorem C7_autostart_idempotent (w : World) (g : String) (vm : VM) (a : Bool)
    (hg : g ≠ "") (hfind : w.findVM g = some vm) :
    (vm.autostart = a →
       (core { autostart := some a, name := some g } w).result =
         .ok [("changed", RVal.bool false)] ∧
       (core { autostart := some a, name := some g } w).trace.countP
         DCall.isSetAuto = 0) ∧
    (vm.autostart ≠ a →
       (core { autostart := some a, name := some g } w).result =
         .ok [("changed", RVal.bool true)] ∧
       (core { autostart := some a, name := some g } w).trace.countP
         DCall.isSetAuto = 1) ∧
    (∀ s : String, s ∈ (["running", "shutdown", "destroyed", "paused"] : List String) →
       vm.statusFails = false →
       (vm.autostart ≠ a →
          ∃ res', (core { state := some s, autostart := some a, name := some g } w).result
              = .ok res' ∧
            res'.get "changed" = some (.bool true) ∧
            (core { state := some s, autostart := some a, name := some g } w).trace.countP
              DCall.isSetAuto = 1) ∧
       (vm.autostart = a →
          (core { state := some s, autostart := some a, name := some g } w).trace.countP
            DCall.isSetAuto = 0)) := by
  refine ⟨?_, ?_, ?_⟩
  · intro heq
    constructor <;>
      simp [core, coreAutostart, coreState, coreCommand, Virt.get_vm, Virt.autostart,
            truthy, hg, hfind, heq, DCall.isSetAuto, List.countP_cons]
  · intro hne
    constructor <;>
      simp [core, coreAutostart, coreState, coreCommand, Virt.get_vm, Virt.autostart,
            truthy, hg, hfind, hne, DCall.isSetAuto, List.countP_cons]
  · intro s hsmem hsf
    simp only [List.mem_cons, List.not_mem_nil, or_false] at hsmem
    have hfind' := findVM_setAuto w g vm a hfind
    constructor
    · intro hne
      rcases hsmem with rfl | rfl | rfl | rfl
      · by_cases hp : VIRT_STATE_NAME_MAP vm.stateCode = "paused"
        · refine ⟨[("changed", RVal.bool true), ("msg", RVal.int 0)], ?_, rfl, ?_⟩ <;>
            simp [core, coreAutostart, coreState, transitionStep, Virt.get_vm,
                  Virt.autostart, Virt.status, Virt.unpause, truthy, hg, hfind, hfind',
                  hsf, hne, hp, ResD.set, DCall.isSetAuto, List.countP_cons]
        · by_cases hr : VIRT_STATE_NAME_MAP vm.stateCode = "running"
          · refine ⟨[("changed", RVal.bool true)], ?_, rfl, ?_⟩ <;>
              simp [core, coreAutostart, coreState, transitionStep, Virt.get_vm,
                    Virt.autostart, Virt.status, truthy, hg, hfind, hfind',
                    hsf, hne, hp, hr, ResD.set, DCall.isSetAuto, List.countP_cons]
          · refine ⟨[("changed", RVal.bool true), ("msg", RVal.int 0)], ?_, rfl, ?_⟩ <;>
              simp [core, coreAutostart, coreState, transitionStep, Virt.get_vm,
                    Virt.autostart, Virt.status, Virt.start, Virt.create, truthy, hg,
                    hfind, hfind', hsf, hne, hp, hr, ResD.set, DCall.isSetAuto,
                    List.countP_cons]
      · by_cases hsd : VIRT_STATE_NAME_MAP vm.stateCode = "shutdown"
        · refine ⟨[("changed", RVal.bool true)], ?_, rfl, ?_⟩ <;>
            simp [core, coreAutostart, coreState, transitionStep, Virt.get_vm,
                  Virt.autostart, Virt.status, truthy, hg, hfind, hfind', hsf, hne,
                  hsd, ResD.set, DCall.isSetAuto, List.countP_cons]
        · refine ⟨[("changed", RVal.bool true), ("msg", RVal.int 0)], ?_, rfl, ?_⟩ <;>
            simp [core, coreAutostart, coreState, transitionStep, Virt.get_vm,
                  Virt.autostart, Virt.status, Virt.shutdown, truthy, hg, hfind,
                  hfind', hsf, hne, hsd, ResD.set, DCall.isSetAuto, List.countP_cons]
      · by_cases hsd : VIRT_STATE_NAME_MAP vm.stateCode = "shutdown"
        · refine ⟨[("changed", RVal.bool true)], ?_, rfl, ?_⟩ <;>
            simp [core, coreAutostart, coreState, transitionStep, Virt.get_vm,
                  Virt.autostart, Virt.status, truthy, hg, hfind, hfind', hsf, hne,
                  hsd, ResD.set, DCall.isSetAuto, List.countP_cons]
        · refine ⟨[("changed", RVal.bool true), ("msg", RVal.int 0)], ?_, rfl, ?_⟩ <;>
            simp [core, coreAutostart, coreState, transitionStep, Virt.get_vm,
                  Virt.autostart, Virt.status, Virt.destroy, truthy, hg, hfind,
                  hfind', hsf, hne, hsd, ResD.set, DCall.isSetAuto, List.countP_cons]
      · by_cases hr : VIRT_STATE_NAME_MAP vm.stateCode = "running"
        · refine ⟨[("changed", RVal.bool true), ("msg", RVal.int 0)], ?_, rfl, ?_⟩ <;>
            simp [core, coreAutostart, coreState, transitionStep, Virt.get_vm,
                  Virt.autostart, Virt.status, Virt.pause, truthy, hg, hfind,
                  hfind', hsf, hne, hr, ResD.set, DCall.isSetAuto, List.countP_cons]
        · refine ⟨[("changed", RVal.bool true)], ?_, rfl, ?_⟩ <;>
            simp [core, coreAutostart, coreState, transitionStep, Virt.get_vm,
                  Virt.autostart, Virt.status, truthy, hg, hfind, hfind', hsf, hne,
                  hr, ResD.set, DCall.isSetAuto, List.countP_cons]
    · intro heq
      rcases hsmem with rfl | rfl | rfl | rfl
      · by_cases hp : VIRT_STATE_NAME_MAP vm.stateCode = "paused"
        · simp [core, coreAutostart, coreState, transitionStep, Virt.get_vm,
                Virt.autostart, Virt.status, Virt.unpause, truthy, hg, hfind, hsf,
                heq, hp, ResD.set, DCall.isSetAuto, List.countP_cons]
        · by_cases hr : VIRT_STATE_NAME_MAP vm.stateCode = "running"
          · simp [core, coreAutostart, coreState, transitionStep, Virt.get_vm,
                  Virt.autostart, Virt.status, truthy, hg, hfind, hsf, heq, hp, hr,
                  ResD.set, DCall.isSetAuto, List.countP_cons]
          · simp [core, coreAutostart, coreState, transitionStep, Virt.get_vm,
                  Virt.autostart, Virt.status, Virt.start, Virt.create, truthy, hg,
                  hfind, hsf, heq, hp, hr, ResD.set, DCall.isSetAuto, List.countP_cons]
      · by_cases hsd : VIRT_STATE_NAME_MAP vm.stateCode = "shutdown"
        · simp [core, coreAutostart, coreState, transitionStep, Virt.get_vm,
                Virt.autostart, Virt.status, truthy, hg, hfind, hsf, heq, hsd,
                ResD.set, DCall.isSetAuto, List.countP_cons]
        · simp [core, coreAutostart, coreState, transitionStep, Virt.get_vm,
                Virt.autostart, Virt.status, Virt.shutdown, truthy, hg, hfind, hsf,
                heq, hsd, ResD.set, DCall.isSetAuto, List.countP_cons]
      · by_cases hsd : VIRT_STATE_NAME_MAP vm.stateCode = "shutdown"
        · simp [core, coreAutostart, coreState, transitionStep, Virt.get_vm,
                Virt.autostart, Virt.status, truthy, hg, hfind, hsf, heq, hsd,
                ResD.set, DCall.isSetAuto, List.countP_cons]
        · simp [core, coreAutostart, coreState, transitionStep, Virt.get_vm,
                Virt.autostart, Virt.status, Virt.destroy, truthy, hg, hfind, hsf,
                heq, hsd, ResD.set, DCall.isSetAuto, List.countP_cons]
      · by_cases hr : VIRT_STATE_NAME_MAP vm.stateCode = "running"
        · simp [core, coreAutostart, coreState, transitionStep, Virt.get_vm,
                Virt.autostart, Virt.status, Virt.pause, truthy, hg, hfind, hsf,
                heq, hr, ResD.set, DCall.isSetAuto, List.countP_cons]
        · simp [core, coreAutostart, coreState, transitionStep, Virt.get_vm,
                Virt.autostart, Virt.status, truthy, hg, hfind, hsf, heq, hr,
                ResD.set, DCall.isSetAuto, List.countP_cons]

/-- C7 witness: toggling autostart on a VM whose flag differs, together
with a shutdown transition, reports changed and one set-autostart
call. -/
theorem C7_autostart_idempotent_witness :
    (core { state := some "shutdown", autostart := some true, name := some "r" }
        wSix).trace.countP DCall.isSetAuto = 1 := by
  obtain ⟨res', hres, hch, hcount⟩ :=
    ((C7_autostart_idempotent wSix "r" vmRun true (by decide) rfl).2.2 "shutdown"
      (by simp) rfl).1 (by decide)
  exact hcount

theorem find_append_none {α : Type} (l1 l2 : List α) (p : α → Bool)
    (h : l1.find? p = none) :
    (l1 ++ l2).find? p = l2.find? p := by
  induction l1 with
  | nil => rfl
  | cons x t ih =>
      by_cases hx : p x
      · rw [List.find?_cons_of_pos _ hx] at h
        cases h
      · rw [List.find?_cons_of_neg _ hx] at h
        rw [List.cons_append, List.find?_cons_of_neg _ hx]
        exact ih h

theorem find_map_setXML (l : List VM) (g : String) (vm : VM) (x' : String)
    (hfind : l.find? (fun v => v.name = g) = some vm) :
    (l.map (fun v => if v.name = g then { v with inactiveXML := x' } else v)).find?
      (fun v => v.name = g) = some { vm with inactiveXML := x' } := by
  induction l with
  | nil => simp at hfind
  | cons x t ih =>
      by_cases hx : x.name = g
      · rw [List.find?_cons_of_pos _ (by simpa using hx)] at hfind
        cases hfind
        simp only [List.map_cons, if_pos hx]
        rw [List.find?_cons_of_pos _ (by simpa using hx)]
      · rw [List.find?_cons_of_neg _ (by simpa using hx)] at hfind
        simp only [List.map_cons, if_neg hx]
        rw [List.find?_cons_of_neg _ (by simpa using hx)]
        exact ih hfind

/-- After a redefining `defineXML`, the stored inactive config of an
already-existing domain is the newly submitted (normalized) one. -/
theorem findVM_defineStore_found (w : World) (g : String) (vm : VM) (x' : String)
    (hfind : w.findVM g = some vm) :
    (w.defineStore g x').findVM g = some { vm with inactiveXML := x' } := by
  unfold World.defineStore
  rw [if_pos (by simp [hfind])]
  unfold World.findVM at *
  exact find_map_setXML w.vms g vm x' hfind

/-- After a creating `defineXML`, the new domain is stored shut off with
the submitted (normalized) config. -/
theorem findVM_defineStore_new (w : World) (g : String) (x' : String)
    (hfind : w.findVM g = none) :
    (w.defineStore g x').findVM g =
      some { name := g, stateCode := 5, autostart := false, inactiveXML := x' } := by
  unfold World.defineStore
  rw [if_neg (by simp [hfind])]
  unfold World.findVM at *
  simp only []
  rw [find_append_none _ _ _ hfind]
  rw [List.find?_cons_of_pos _ (by simp)]

/-- VM and world for the define witnesses. -/
def vmA : VM :=
  { name := "a", stateCode := 3, autostart := false,
    inactiveXML := "<domain><name>a</name></domain>" }

def wDef : World := { vms := [vmA], normalizeXML := id }

/-- C3 counterexample: defining a brand-new name yields a result whose
change marker is a `created` key holding the domain name — there is no
`change_reason` field at all, so "changed=true with reason `created`"
(reason being the `change_reason` key, as in the other clauses) is false
as stated. -/
theorem C3_counterexample :
    (core { command := some "define",
            xml := some "<domain><name>b</name></domain>" } wDef).result =
      .ok [("changed", RVal.bool true), ("created", RVal.str "b")] ∧
    ResD.get [("changed", RVal.bool true), ("created", RVal.str "b")] "change_reason"
      = none := by
  exact ⟨rfl, rfl⟩

/-- C3 (amended): for command `define` (define succeeding, no autostart
argument): if the embedded name denotes an existing VM and the new
inactive config equals the pre-existing one, the result is the empty
dict (reported as changed=false); if they differ, the result is
`changed=true, change_reason=config changed`; and for a brand-new name
the result is `changed=true` with a `created` key holding the domain
name (no change_reason). -/
theorem C3_define_idempotency (w : World) (x n : String)
    (hx : x ≠ "") (hn : extractDomainName x = some n)
    (hdef : w.defineErrCode = none) :
    (∀ vm, w.findVM n = some vm → w.normalizeXML x = vm.inactiveXML →
       (core { command := some "define", xml := some x } w).result = .ok [] ∧
       finalChanged [] = false) ∧
    (∀ vm, w.findVM n = some vm → w.normalizeXML x ≠ vm.inactiveXML →
       (core { command := some "define", xml := some x } w).result =
         .ok [("changed", RVal.bool true),
              ("change_reason", RVal.str "config changed")]) ∧
    (w.findVM n = none →
       (core { command := some "define", xml := some x } w).result =
         .ok [("changed", RVal.bool true), ("created", RVal.str n)]) := by
  refine ⟨?_, ?_, ?_⟩
  · intro vm hfind heq
    have hfs := findVM_defineStore_found w n vm (w.normalizeXML x) hfind
    rw [heq] at hfs
    refine ⟨?_, rfl⟩
    simp [core, coreAutostart, coreState, coreCommand, coreDefine, coreDefineBody,
          defineAutostartTail, Virt.get_vm, Virt.define, truthy, hx, hn, hdef,
          hfind, hfs, heq, VM_COMMANDS]
  · intro vm hfind hne
    have hfs := findVM_defineStore_found w n vm (w.normalizeXML x) hfind
    simp [core, coreAutostart, coreState, coreCommand, coreDefine, coreDefineBody,
          defineAutostartTail, Virt.get_vm, Virt.define, truthy, hx, hn, hdef,
          hfind, hfs, Ne.symm hne, VM_COMMANDS]
  · intro hfind
    simp [core, coreAutostart, coreState, coreCommand, coreDefine, coreDefineBody,
          defineAutostartTail, Virt.get_vm, Virt.define, truthy, hx, hn, hdef,
          hfind, VM_COMMANDS]

/-- C3 witness: redefining the existing domain with different content
reports `config changed`. -/
theorem C3_define_idempotency_witness :
    (core { command := some "define",
            xml := some "<domain><name>a</name><on_crash/></domain>" } wDef).result =
      .ok [("changed", RVal.bool true),
           ("change_reason", RVal.str "config changed")] :=
  (C3_define_idempotency wDef "<domain><name>a</name><on_crash/></domain>" "a"
      (by decide) rfl rfl).2.1 vmA rfl (by decide)

end VirtModule
